import Mathlib

/-!
Verification development for the oead codec layer (BYML / AAMP / SARC / Yaz0).

The C++ sources are embedded shallowly: byte buffers are `List Nat` (each
element a byte value < 256), machine integers are `Nat`/`Int` with explicit
wrapping where the code relies on fixed widths, and C++ exceptions are the
`Err` error kind of an `Except` result.  Every definition is translated from
the corresponding function in the repository sources; the few helpers that
live in headers not shipped with the sources (align.h, magic_utils.h) are
modelled from the specification and marked as such in their doc comments.
-/

namespace Oead

/-- Error kinds surfaced by the C++ code: `InvalidDataError`, `TypeError` and
`UnsupportedError` from oead/errors.h, plus the standard-library exception
kinds the code can raise (`std::bad_optional_access` from `optional::value()`,
`std::out_of_range`, `std::invalid_argument`, `std::logic_error`).
`undefinedBehaviour` marks executions where the C++ has undefined behaviour
(dereference of an empty optional, out-of-bounds span arithmetic);
`stackOverflow` marks exhaustion of the modelled recursion depth. -/
inductive Err where
  | invalidData
  | typeError
  | unsupported
  | badOptionalAccess
  | outOfRange
  | invalidArgument
  | logicError
  | undefinedBehaviour
  | stackOverflow
deriving DecidableEq, Repr

/-- Endianness tag from oead/util/swap.h. -/
inductive Endianness where
  | big
  | little
deriving DecidableEq, Repr

/-- Modelled from the spec: `util::ByteOrderMarkToEndianness` (declared in a
header that is not under src/); the spec says the readers derive endianness
from the 0xFEFF byte-order mark. -/
def byteOrderMarkToEndianness (bom : Nat) : Endianness :=
  if bom = 0xFEFF then .big else .little

/-- Modelled from the spec: `util::AlignUp(value, n)` from oead/util/align.h
(header not under src/): rounds `value` up to the next multiple of `n`.
All call sites in the sources pass the value first and the alignment second. -/
def alignUp (value n : Nat) : Nat := ((value + n - 1) / n) * n

/-- Little-endian byte decomposition of `v` into `w` bytes. -/
def natToBytesLE : Nat → Nat → List Nat
  | 0, _ => []
  | w + 1, v => v % 256 :: natToBytesLE w (v / 256)

/-- Recompose a little-endian byte list into a natural number. -/
def bytesToNatLE (bs : List Nat) : Nat := bs.foldr (fun b acc => acc * 256 + b) 0

/-- Recompose a big-endian byte list into a natural number. -/
def bytesToNatBE (bs : List Nat) : Nat := bs.foldl (fun acc b => acc * 256 + b) 0

/-- Byte encoding of a `w`-byte integer in the given endianness. -/
def natToBytes (e : Endianness) (w v : Nat) : List Nat :=
  match e with
  | .big => (natToBytesLE w v).reverse
  | .little => natToBytesLE w v

/-- Byte decoding of a `w`-byte integer in the given endianness. -/
def bytesToNat (e : Endianness) (bs : List Nat) : Nat :=
  match e with
  | .big => bytesToNatBE bs
  | .little => bytesToNatLE bs

/-- Two's-complement reinterpretation of an unsigned 32-bit value as `s32`
(the effect of `S32(*raw)` and `Read<int>` in the sources). -/
def toS32 (n : Nat) : Int :=
  if n < 2 ^ 31 then (n : Int) else (n : Int) - 2 ^ 32

/-- Two's-complement reinterpretation of an unsigned 64-bit value as `s64`. -/
def toS64 (n : Nat) : Int :=
  if n < 2 ^ 63 then (n : Int) else (n : Int) - 2 ^ 64

/-- Two's-complement encoding of a signed value into `w * 8` bits. -/
def toUnsigned (w : Nat) (v : Int) : Nat :=
  (v % (2 ^ (8 * w) : Nat)).toNat

/-- Inner round of `util::crc32` from oead/util/hash.h:
`mask = -(crc & 1); crc = (crc >> 1) ^ (0xEDB88320 & mask)`. -/
def crc32Round (c : Nat) : Nat :=
  (c / 2) ^^^ (if c % 2 = 1 then 0xEDB88320 else 0)

/-- Per-byte step of `util::crc32`: xor in the byte, then eight rounds. -/
def crc32Byte (c b : Nat) : Nat :=
  Nat.iterate crc32Round 8 (c ^^^ b % 256)

/-- CRC-32 from oead/util/hash.h: init 0xFFFFFFFF, final complement. -/
def crc32 (bs : List Nat) : Nat :=
  0xFFFFFFFF ^^^ bs.foldl crc32Byte 0xFFFFFFFF

/-- Test whether an `Except` result is a success. -/
def exceptIsOk : Except Err α → Bool
  | .ok _ => true
  | .error _ => false

/-! ## util::BinaryReader (src/include/oead/util/binary_reader.h) -/

/-- Model of `util::BinaryReader`: a read-only byte view, a cursor, and an
endianness tag. -/
structure BinaryReader where
  data : List Nat
  offset : Nat
  endian : Endianness
deriving DecidableEq, Repr

/-- `BinaryReader::Read<T>` for a `width`-byte unsigned integer.  Performs the
single bounds check `m_offset + sizeof(T) > m_data.size()` and returns
`std::nullopt` (here `none`) on failure; otherwise decodes with byte
swapping per the reader endianness and advances the cursor. -/
def BinaryReader.readNat (r : BinaryReader) (width : Nat) (off? : Option Nat) :
    Option (Nat × BinaryReader) :=
  let r := match off? with
    | some o => { r with offset := o }
    | none => r
  if r.offset + width > r.data.length then none
  else
    let bs := (r.data.drop r.offset).take width
    some (bytesToNat r.endian bs, { r with offset := r.offset + width })

/-- `BinaryReader::ReadU24`: three-byte read; the explicit big/little formulas
in the source coincide with the generic byte recomposition. -/
def BinaryReader.readU24 (r : BinaryReader) (off? : Option Nat) :
    Option (Nat × BinaryReader) :=
  r.readNat 3 off?

/-- `BinaryReader::ReadString(offset, max_len)`: bounded null-terminated read.
Throws `std::out_of_range` when `offset > m_data.size()`; otherwise clamps
`max_len` to the remaining bytes and returns the bytes before the first NUL. -/
def BinaryReader.readString (r : BinaryReader) (offset : Nat) (maxLen? : Option Nat) :
    Except Err (List Nat) :=
  if offset > r.data.length then .error .outOfRange
  else
    let avail := r.data.length - offset
    let maxLen := match maxLen? with
      | none => avail
      | some m => if m > avail then avail else m
    .ok (((r.data.drop offset).take maxLen).takeWhile (fun b => b ≠ 0))

/-! ## util::BinaryWriter (src/include/oead/util/binary_reader.h) -/

/-- Model of `util::BinaryWriterBase`: an owned byte buffer, a cursor, and an
endianness tag. -/
structure BinaryWriter where
  data : List Nat
  offset : Nat
  endian : Endianness
deriving DecidableEq, Repr

/-- `BinaryWriter::WriteBytes`: grow the buffer (zero-filled, as
`std::vector::resize` does) when the write extends past the end, then
overwrite `bs.length` bytes at the cursor and advance it. -/
def BinaryWriter.writeBytes (w : BinaryWriter) (bs : List Nat) : BinaryWriter :=
  let needed := w.offset + bs.length
  let d := if needed > w.data.length
    then w.data ++ List.replicate (needed - w.data.length) 0
    else w.data
  { w with data := d.take w.offset ++ bs ++ d.drop needed, offset := needed }

/-- `BinaryWriter::Write<T>` for a `width`-byte unsigned integer (byte-swapped
per the writer endianness; the value is truncated to the field width exactly
as the C++ integral conversion does). -/
def BinaryWriter.writeNat (w : BinaryWriter) (width v : Nat) : BinaryWriter :=
  w.writeBytes (natToBytes w.endian width (v % 2 ^ (8 * width)))

/-- `BinaryWriter::WriteU24` (three bytes, endianness-dispatched). -/
def BinaryWriter.writeU24 (w : BinaryWriter) (v : Nat) : BinaryWriter :=
  w.writeBytes (natToBytes w.endian 3 (v % 2 ^ 24))

/-- `BinaryWriter::Write<T>` for a signed value (two's complement). -/
def BinaryWriter.writeInt (w : BinaryWriter) (width : Nat) (v : Int) : BinaryWriter :=
  w.writeNat width (toUnsigned width v)

/-- `BinaryWriter::Seek`. -/
def BinaryWriter.seek (w : BinaryWriter) (o : Nat) : BinaryWriter :=
  { w with offset := o }

/-- `BinaryWriter::WriteCStr`: the string bytes followed by a NUL byte. -/
def BinaryWriter.writeCStr (w : BinaryWriter) (s : List Nat) : BinaryWriter :=
  (w.writeBytes s).writeBytes [0]

/-- `BinaryWriter::AlignUp(n)`: advance the cursor without growing the buffer. -/
def BinaryWriter.alignCursor (w : BinaryWriter) (n : Nat) : BinaryWriter :=
  w.seek (alignUp w.offset n)

/-- `BinaryWriter::GrowBuffer`: zero-fill up to the cursor. -/
def BinaryWriter.growBuffer (w : BinaryWriter) : BinaryWriter :=
  if w.offset > w.data.length
  then { w with data := w.data ++ List.replicate (w.offset - w.data.length) 0 }
  else w

/-- `BinaryWriter::WriteCurrentOffsetAt<T>(offset, base)`: write
`Tell() - base` as a `width`-byte integer at `offset`, preserving the cursor
(`RunAt` saves and restores it). -/
def BinaryWriter.writeCurrentOffsetAt (w : BinaryWriter) (width offset base : Nat) :
    BinaryWriter :=
  let cur := w.offset
  let w2 := (w.seek offset).writeNat width (cur - base)
  w2.seek cur

/-! ## BYML document model (oead/byml.h; codec in src/src/sarc.cpp, second unit) -/

/-- In-memory BYML node (`class Byml` in oead/byml.h).  Strings are byte
lists; `float`/`double` carry the raw 32/64-bit patterns that the codec
moves around with `util::BitCast` (the codec never interprets them).
`hash32`/`hash64`/`dict` entries model `absl::btree_map`s: association lists
kept sorted by key. -/
inductive Byml where
  | null
  | hash32 (entries : List (Nat × Byml))
  | hash64 (entries : List (Nat × Byml))
  | str (s : List Nat)
  | binary (data : List Nat)
  | file (data : List Nat) (align : Nat)
  | arr (items : List Byml)
  | dict (entries : List (List Nat × Byml))
  | bool (b : Bool)
  | int (v : Int)
  | float (bits : Nat)
  | uint (v : Nat)
  | int64 (v : Int)
  | uint64 (v : Nat)
  | double (bits : Nat)
deriving Repr

mutual

/-- Deep structural equality on BYML nodes (`operator==` generated by
`OEAD_DEFINE_FIELDS`, which compares payloads through the owning handles).
This is the key equality of the writer's `non_inline_node_data` map. -/
def Byml.beq : Byml → Byml → Bool
  | .null, b => match b with | .null => true | _ => false
  | .hash32 a, b => match b with | .hash32 c => bymlBeqHashEntries a c | _ => false
  | .hash64 a, b => match b with | .hash64 c => bymlBeqHashEntries a c | _ => false
  | .str a, b => match b with | .str c => a == c | _ => false
  | .binary a, b => match b with | .binary c => a == c | _ => false
  | .file d1 a1, b => match b with | .file d2 a2 => d1 == d2 && a1 == a2 | _ => false
  | .arr a, b => match b with | .arr c => bymlBeqItems a c | _ => false
  | .dict a, b => match b with | .dict c => bymlBeqDictEntries a c | _ => false
  | .bool a, b => match b with | .bool c => a == c | _ => false
  | .int a, b => match b with | .int c => a == c | _ => false
  | .float a, b => match b with | .float c => a == c | _ => false
  | .uint a, b => match b with | .uint c => a == c | _ => false
  | .int64 a, b => match b with | .int64 c => a == c | _ => false
  | .uint64 a, b => match b with | .uint64 c => a == c | _ => false
  | .double a, b => match b with | .double c => a == c | _ => false
termination_by structural x => x

/-- Deep equality on hash-container entry lists. -/
def bymlBeqHashEntries : List (Nat × Byml) → List (Nat × Byml) → Bool
  | [], l => l.isEmpty
  | (k1, v1) :: r1, l =>
    match l with
    | (k2, v2) :: r2 => k1 == k2 && v1.beq v2 && bymlBeqHashEntries r1 r2
    | [] => false
termination_by structural x => x

/-- Deep equality on array item lists. -/
def bymlBeqItems : List Byml → List Byml → Bool
  | [], l => l.isEmpty
  | a :: r1, l =>
    match l with
    | b :: r2 => a.beq b && bymlBeqItems r1 r2
    | [] => false
termination_by structural x => x

/-- Deep equality on dictionary entry lists. -/
def bymlBeqDictEntries : List (List Nat × Byml) → List (List Nat × Byml) → Bool
  | [], l => l.isEmpty
  | (k1, v1) :: r1, l =>
    match l with
    | (k2, v2) :: r2 => k1 == k2 && v1.beq v2 && bymlBeqDictEntries r1 r2
    | [] => false
termination_by structural x => x

end

/-- `byml::GetNodeType`: wire node-type byte for each in-memory type. -/
def Byml.nodeType : Byml → Nat
  | .null => 0xff
  | .hash32 _ => 0x20
  | .hash64 _ => 0x21
  | .str _ => 0xa0
  | .binary _ => 0xa1
  | .file _ _ => 0xa2
  | .arr _ => 0xc0
  | .dict _ => 0xc1
  | .bool _ => 0xd0
  | .int _ => 0xd1
  | .float _ => 0xd2
  | .uint _ => 0xd3
  | .int64 _ => 0xd4
  | .uint64 _ => 0xd5
  | .double _ => 0xd6

/-- `byml::IsContainerType` on wire node-type bytes. -/
def isContainerNodeType (t : Nat) : Bool :=
  t = 0xc0 || t = 0xc1 || t = 0x20 || t = 0x21

/-- `byml::IsLongType` on wire node-type bytes. -/
def isLongNodeType (t : Nat) : Bool :=
  t = 0xd4 || t = 0xd5 || t = 0xd6

/-- `byml::IsNonInlineType` on wire node-type bytes. -/
def isNonInlineNodeType (t : Nat) : Bool :=
  isContainerNodeType t || isLongNodeType t || t = 0xa1 || t = 0xa2

/-- `byml::IsValidVersion`: `1 <= version && version <= 10`. -/
def isValidVersion (v : Nat) : Bool := 1 ≤ v && v ≤ 10

/-- Alignment stored in a `File` node (0 for every other node; only consulted
for `File` nodes, mirroring `data.GetFile().align`). -/
def Byml.fileAlign : Byml → Nat
  | .file _ a => a
  | _ => 0

/-- Byte-lexicographic strict order on strings (`operator<` on
`std::string_view`, used by `std::sort` and by `absl::btree_map`). -/
def lexLt : List Nat → List Nat → Bool
  | [], [] => false
  | [], _ :: _ => true
  | _ :: _, [] => false
  | a :: as, b :: bs => if a < b then true else if b < a then false else lexLt as bs

/-- Insert a string into a lexicographically sorted list. -/
def insertLex (s : List Nat) : List (List Nat) → List (List Nat)
  | [] => [s]
  | t :: ts => if lexLt s t then s :: t :: ts else t :: insertLex s ts

/-- Sort a list of strings lexicographically (`SortMapKeys` + `std::sort`). -/
def sortLex (l : List (List Nat)) : List (List Nat) := l.foldr insertLex []

/-- `StringTable::Add`: set insertion (`flat_hash_map::emplace` keeps the
first occurrence; only membership matters since `Build` sorts). -/
def addString (s : List Nat) (l : List (List Nat)) : List (List Nat) :=
  if l.contains s then l else l ++ [s]

mutual

/-- Key/string collection pass of `byml::WriteContext`'s constructor:
dictionary keys go to the hash-key table, string values to the string table. -/
def bymlCollect : Byml → List (List Nat) × List (List Nat) →
    List (List Nat) × List (List Nat)
  | .str s, acc => (acc.1, addString s acc.2)
  | .arr items, acc => bymlCollectItems items acc
  | .dict entries, acc => bymlCollectDict entries acc
  | .hash32 entries, acc => bymlCollectHash32 entries acc
  | .hash64 entries, acc => bymlCollectHash64 entries acc
  | _, acc => acc

/-- Collection pass over array children. -/
def bymlCollectItems : List Byml → List (List Nat) × List (List Nat) →
    List (List Nat) × List (List Nat)
  | [], acc => acc
  | x :: xs, acc => bymlCollectItems xs (bymlCollect x acc)

/-- Collection pass over dictionary entries (adds each key, then recurses). -/
def bymlCollectDict : List (List Nat × Byml) → List (List Nat) × List (List Nat) →
    List (List Nat) × List (List Nat)
  | [], acc => acc
  | (k, v) :: xs, acc => bymlCollectDict xs (bymlCollect v (addString k acc.1, acc.2))

/-- Collection pass over Hash32 entries (values only). -/
def bymlCollectHash32 : List (Nat × Byml) → List (List Nat) × List (List Nat) →
    List (List Nat) × List (List Nat)
  | [], acc => acc
  | (_, v) :: xs, acc => bymlCollectHash32 xs (bymlCollect v acc)

/-- Collection pass over Hash64 entries (values only). -/
def bymlCollectHash64 : List (Nat × Byml) → List (List Nat) × List (List Nat) →
    List (List Nat) × List (List Nat)
  | [], acc => acc
  | (_, v) :: xs, acc => bymlCollectHash64 xs (bymlCollect v acc)

end

mutual

/-- Node count of a BYML tree; used as the writer's recursion-depth fuel
(the C++ recursion depth is bounded by the tree height, which this bounds). -/
def Byml.treeSize : Byml → Nat
  | .arr items => 1 + bymlTreeSizeItems items
  | .dict entries => 1 + bymlTreeSizeDict entries
  | .hash32 entries => 1 + bymlTreeSizeHash entries
  | .hash64 entries => 1 + bymlTreeSizeHash entries
  | _ => 1

/-- Node count of an array's items. -/
def bymlTreeSizeItems : List Byml → Nat
  | [] => 0
  | x :: xs => x.treeSize + bymlTreeSizeItems xs

/-- Node count of a dictionary's entries. -/
def bymlTreeSizeDict : List (List Nat × Byml) → Nat
  | [] => 0
  | (_, v) :: xs => v.treeSize + bymlTreeSizeDict xs

/-- Node count of a hash container's entries. -/
def bymlTreeSizeHash : List (Nat × Byml) → Nat
  | [] => 0
  | (_, v) :: xs => v.treeSize + bymlTreeSizeHash xs

end

/-- Built writer-side string table: the sorted string list
(`StringTable::Build`); indices are positions in this list. -/
structure WStringTable where
  sorted : List (List Nat)
deriving DecidableEq, Repr

/-- `StringTable::GetIndex` (`map.at`, which raises `std::out_of_range` when
the string is absent). -/
def WStringTable.getIndex (t : WStringTable) (s : List Nat) : Except Err Nat :=
  if t.sorted.contains s then .ok (t.sorted.indexOf s) else .error .outOfRange

/-- `byml::WriteContext::WriteStringTable`. -/
def writeBymlStringTable (w : BinaryWriter) (t : WStringTable) : BinaryWriter :=
  let base := w.offset
  let w := (w.writeNat 1 0xc2).writeU24 t.sorted.length
  let ott := w.offset
  let w := w.seek (w.offset + 4 * (t.sorted.length + 1))
  let w := t.sorted.enum.foldl
    (fun w is => ((w.writeCurrentOffsetAt 4 (ott + 4 * is.1) base).writeCStr is.2)) w
  let w := w.writeCurrentOffsetAt 4 (ott + 4 * t.sorted.length) base
  w.alignCursor 4

/-- `byml::WriteContext::WriteValueNode`.  The `File` case reproduces the
source verbatim, including the argument order of the
`util::AlignUp(data.GetFile().align, writer.Tell() + 8) - 8` seek. -/
def writeBymlValueNode (w : BinaryWriter) (st : WStringTable) (b : Byml) :
    Except Err BinaryWriter :=
  match b with
  | .null => .ok (w.writeNat 4 0)
  | .str s => do
      let idx ← st.getIndex s
      .ok (w.writeNat 4 idx)
  | .binary data => .ok ((w.writeNat 4 data.length).writeBytes data)
  | .file data align =>
      let w := w.seek (alignUp align (w.offset + 8) - 8)
      .ok (((w.writeNat 4 data.length).writeNat 4 align).writeBytes data)
  | .bool v => .ok (w.writeNat 4 (if v then 1 else 0))
  | .int v => .ok (w.writeInt 4 v)
  | .float bits => .ok (w.writeNat 4 bits)
  | .uint v => .ok (w.writeNat 4 v)
  | .int64 v => .ok (w.writeInt 8 v)
  | .uint64 v => .ok (w.writeNat 8 v)
  | .double bits => .ok (w.writeNat 8 bits)
  | _ => .error .logicError

/-- Cell writer `write_container_item` from
`byml::WriteContext::WriteContainerNode`: non-inline children get a queued
placeholder cell, inline children are written in place. -/
def writeBymlContainerItem (st : WStringTable)
    (acc : BinaryWriter × List (Nat × Byml)) (item : Byml) :
    Except Err (BinaryWriter × List (Nat × Byml)) :=
  if isNonInlineNodeType item.nodeType then
    .ok ((acc.1.writeNat 4 0), acc.2 ++ [(acc.1.offset, item)])
  else do
    let w ← writeBymlValueNode acc.1 st item
    .ok (w, acc.2)

mutual

/-- `byml::WriteContext::WriteContainerNode`: write the container header and
cells, then write each queued non-inline child, deduplicating through the
content-addressed `non_inline_node_data` map.  The `File` placement offset
keeps the source's `util::AlignUp(align, Tell() + 8) - 8` argument order.
`fuel` bounds the modelled call-stack depth. -/
def writeBymlContainerNode (fuel : Nat) (w : BinaryWriter) (hkt st : WStringTable)
    (dedup : List (Byml × Nat)) (b : Byml) :
    Except Err (BinaryWriter × List (Byml × Nat)) :=
  match fuel with
  | 0 => .error .stackOverflow
  | f + 1 => do
    let (w, nonInline) ←
      match b with
      | .arr items => do
          let w := (w.writeNat 1 0xc0).writeU24 items.length
          let w := items.foldl (fun w it => w.writeNat 1 it.nodeType) w
          let w := w.alignCursor 4
          items.foldlM (writeBymlContainerItem st) (w, [])
      | .dict entries => do
          let w := (w.writeNat 1 0xc1).writeU24 entries.length
          entries.foldlM
            (fun acc kv => do
              let idx ← hkt.getIndex kv.1
              let w := (acc.1.writeU24 idx).writeNat 1 kv.2.nodeType
              writeBymlContainerItem st (w, acc.2) kv.2)
            (w, [])
      | .hash32 entries => do
          let w := (w.writeNat 1 0x20).writeU24 entries.length
          let acc ← entries.foldlM
            (fun acc kv => writeBymlContainerItem st (acc.1.writeNat 4 kv.1, acc.2) kv.2)
            (w, [])
          let w := entries.foldl (fun w kv => w.writeNat 1 kv.2.nodeType) acc.1
          pure (w.alignCursor 4, acc.2)
      | .hash64 entries => do
          let w := (w.writeNat 1 0x21).writeU24 entries.length
          let acc ← entries.foldlM
            (fun acc kv => writeBymlContainerItem st (acc.1.writeNat 8 kv.1, acc.2) kv.2)
            (w, [])
          let w := entries.foldl (fun w kv => w.writeNat 1 kv.2.nodeType) acc.1
          pure (w.alignCursor 4, acc.2)
      | _ => .error .invalidArgument
    writeBymlNonInline f w hkt st dedup nonInline
termination_by structural fuel

/-- The queued-child loop at the end of `WriteContainerNode`: reuse the offset
of an already-written equal node, or record the new offset (with the `File`
special placement), back-patch the placeholder cell, and write the child. -/
def writeBymlNonInline (fuel : Nat) (w : BinaryWriter) (hkt st : WStringTable)
    (dedup : List (Byml × Nat)) (queue : List (Nat × Byml)) :
    Except Err (BinaryWriter × List (Byml × Nat)) :=
  match fuel with
  | 0 => .error .stackOverflow
  | f + 1 =>
    match queue with
    | [] => .ok (w, dedup)
    | (cellOff, node) :: rest =>
      match dedup.find? (fun p => p.1.beq node) with
      | some p =>
        let cur := w.offset
        let w := (((w.seek cellOff).writeNat 4 p.2).seek cur)
        writeBymlNonInline f w hkt st dedup rest
      | none => do
        let off := if node.nodeType ≠ 0xa2 then w.offset
          else alignUp node.fileAlign (w.offset + 8) - 8
        let cur := w.offset
        let w := (((w.seek cellOff).writeNat 4 off).seek cur)
        let dedup := dedup ++ [(node, off)]
        let (w, dedup) ←
          if isContainerNodeType node.nodeType then
            writeBymlContainerNode f w hkt st dedup node
          else do
            let w ← writeBymlValueNode w st node
            pure (w, dedup)
        writeBymlNonInline f w hkt st dedup rest
termination_by structural fuel

end

/-- `Byml::ToBinary(big_endian, version)` from src/src/sarc.cpp: version
gate (`std::invalid_argument` outside 1..=10 — the writer performs no
node-kind/version compatibility check), header, the two string tables, and
the root container.  Trailing alignment only moves the cursor, so it does not
pad the returned buffer, exactly as in the source. -/
def bymlToBinary (b : Byml) (bigEndian : Bool) (version : Nat) : Except Err (List Nat) :=
  if isValidVersion version = false then .error .invalidArgument
  else
    let endian := if bigEndian then Endianness.big else Endianness.little
    let tables := bymlCollect b ([], [])
    let hkt : WStringTable := ⟨sortLex tables.1⟩
    let st : WStringTable := ⟨sortLex tables.2⟩
    let w : BinaryWriter := ⟨[], 0, endian⟩
    let w := w.writeBytes (if bigEndian then [0x42, 0x59] else [0x59, 0x42])
    let w := w.writeNat 2 version
    let w := ((w.writeNat 4 0).writeNat 4 0).writeNat 4 0
    if b.nodeType = 0xff then .ok w.data
    else do
      let w := if hkt.sorted.isEmpty then w
        else writeBymlStringTable (w.writeCurrentOffsetAt 4 4 0) hkt
      let w := if st.sorted.isEmpty then w
        else writeBymlStringTable (w.writeCurrentOffsetAt 4 8 0) st
      let w := (w.writeCurrentOffsetAt 4 12 0).alignCursor 4
      let (w, _) ← writeBymlContainerNode (b.treeSize + 1) w hkt st [] b
      let w := w.alignCursor 4
      .ok w.data

/-! ## BYML parser (byml::Parser in src/src/sarc.cpp, second unit) -/

/-- Resolved string table (`byml::StringTableParser`): base offset and entry
count. -/
structure RStringTable where
  off : Nat
  size : Nat
deriving DecidableEq, Repr

/-- `StringTableParser`'s constructor: an offset of 0 yields the empty table;
otherwise the node header must be a (possibly relocated) string table.  The
source dereferences the relocation offset optional without a check, which is
undefined behaviour when that read fails. -/
def rStringTableInit (r : BinaryReader) (offset : Nat) :
    Except Err (RStringTable × BinaryReader) :=
  if offset = 0 then .ok (⟨0, 0⟩, r)
  else
    match r.readNat 1 (some offset) with
    | none => .error .invalidData
    | some (t, r) =>
      match r.readU24 none with
      | none => .error .invalidData
      | some (n, r) =>
        if t ≠ 0xc2 ∧ t ≠ 0xc5 then .error .invalidData
        else if t ≠ 0xc5 then .ok (⟨offset, n⟩, r)
        else
          match r.readNat 8 none with
          | none => .error .undefinedBehaviour
          | some (reloc, r) => .ok (⟨offset + reloc, n⟩, r)

/-- `StringTableParser::GetString`: bounds-check the index, read the entry
offset and its successor (the offset array has `size + 1` elements), demand
monotonicity, and read the bounded null-terminated string. -/
def RStringTable.getString (st : RStringTable) (r : BinaryReader) (idx : Nat) :
    Except Err (List Nat × BinaryReader) :=
  if idx ≥ st.size then .error .outOfRange
  else
    match r.readNat 4 (some (st.off + 4 + 4 * idx)) with
    | none => .error .invalidData
    | some (rel, r) =>
      match r.readNat 4 none with
      | none => .error .invalidData
      | some (next, r) =>
        if next < rel then .error .invalidData
        else do
          let s ← r.readString (st.off + rel) (some (next - rel))
          .ok (s, r)

/-- Cursor positioning of `BinaryReader::Seek`. -/
def BinaryReader.seek (r : BinaryReader) (o : Nat) : BinaryReader :=
  { r with offset := o }

/-- `absl::btree_map<u32/u64, Byml>::emplace`: ordered insert that keeps the
existing entry when the key is already present. -/
def hashEmplace (k : Nat) (v : Byml) : List (Nat × Byml) → List (Nat × Byml)
  | [] => [(k, v)]
  | (k2, v2) :: rest =>
    if k = k2 then (k2, v2) :: rest
    else if k < k2 then (k, v) :: (k2, v2) :: rest
    else (k2, v2) :: hashEmplace k v rest

/-- `absl::btree_map<std::string, Byml>::emplace` (byte-lexicographic order). -/
def dictEmplace (k : List Nat) (v : Byml) : List (List Nat × Byml) → List (List Nat × Byml)
  | [] => [(k, v)]
  | (k2, v2) :: rest =>
    if k = k2 then (k2, v2) :: rest
    else if lexLt k k2 then (k, v) :: (k2, v2) :: rest
    else (k2, v2) :: dictEmplace k v rest

/-- `byml::Parser::ParseValueNode`: read the 4-byte cell, then decode by node
type.  Long types dereference the cell as an offset to an 8-byte payload;
`Binary`/`File` read their size (and alignment) through `.value()` — a failed
read there surfaces as `std::bad_optional_access` — and then build the byte
vector from raw span iterators, which is undefined behaviour when the range
leaves the buffer. -/
def parseBymlValueNode (strT : RStringTable) (r : BinaryReader) (offset typ : Nat) :
    Except Err (Byml × BinaryReader) :=
  match r.readNat 4 (some offset) with
  | none => .error .invalidData
  | some (raw, r) =>
    match typ with
    | 0xa0 => do
        let (s, r) ← strT.getString r raw
        .ok (.str s, r)
    | 0xa1 =>
      match r.readNat 4 (some raw) with
      | none => .error .badOptionalAccess
      | some (size, r) =>
        if raw + 4 + size ≤ r.data.length
        then .ok (.binary ((r.data.drop (raw + 4)).take size), r)
        else .error .undefinedBehaviour
    | 0xa2 =>
      match r.readNat 4 (some raw) with
      | none => .error .badOptionalAccess
      | some (size, r) =>
        match r.readNat 4 none with
        | none => .error .badOptionalAccess
        | some (align, r) =>
          if raw + 8 + size ≤ r.data.length
          then .ok (.file ((r.data.drop (raw + 8)).take size) align, r)
          else .error .undefinedBehaviour
    | 0xd0 => .ok (.bool (raw ≠ 0), r)
    | 0xd1 => .ok (.int (toS32 raw), r)
    | 0xd2 => .ok (.float raw, r)
    | 0xd3 => .ok (.uint raw, r)
    | 0xd4 =>
      match r.readNat 8 (some raw) with
      | none => .error .invalidData
      | some (v, r) => .ok (.int64 (toS64 v), r)
    | 0xd5 =>
      match r.readNat 8 (some raw) with
      | none => .error .invalidData
      | some (v, r) => .ok (.uint64 v, r)
    | 0xd6 =>
      match r.readNat 8 (some raw) with
      | none => .error .invalidData
      | some (v, r) => .ok (.double v, r)
    | 0xff => .ok (.null, r)
    | _ => .error .invalidData

mutual

/-- `byml::Parser::ParseContainerNode`: read the node-type byte and the
24-bit count, then dispatch on the container kind. -/
def parseBymlContainerNode (fuel : Nat) (hkt strT : RStringTable) (r : BinaryReader)
    (offset : Nat) : Except Err (Byml × BinaryReader) :=
  match fuel with
  | 0 => .error .stackOverflow
  | f + 1 =>
    match r.readNat 1 (some offset) with
    | none => .error .invalidData
    | some (t, r) =>
      match r.readU24 none with
      | none => .error .invalidData
      | some (n, r) =>
        match t with
        | 0xc0 => do
            let (items, r) ← parseBymlArrayEntries f hkt strT r offset n
              (alignUp (offset + 4 + n) 4) 0 []
            .ok (.arr items, r)
        | 0xc1 => do
            let (entries, r) ← parseBymlDictEntries f hkt strT r offset n 0 []
            .ok (.dict entries, r)
        | 0x20 => do
            let (entries, r) ← parseBymlHash32Entries f hkt strT r offset n 0 []
            .ok (.hash32 entries, r)
        | 0x21 => do
            let (entries, r) ← parseBymlHash64Entries f hkt strT r offset n 0 []
            .ok (.hash64 entries, r)
        | _ => .error .invalidData
termination_by structural fuel

/-- `byml::Parser::ParseContainerChildNode`: containers recurse through the
offset stored in the cell (unwrapped with `.value()`); everything else
decodes in place. -/
def parseBymlChildNode (fuel : Nat) (hkt strT : RStringTable) (r : BinaryReader)
    (offset typ : Nat) : Except Err (Byml × BinaryReader) :=
  match fuel with
  | 0 => .error .stackOverflow
  | f + 1 =>
    if isContainerNodeType typ then
      match r.readNat 4 (some offset) with
      | none => .error .badOptionalAccess
      | some (off2, r) => parseBymlContainerNode f hkt strT r off2
    else parseBymlValueNode strT r offset typ
termination_by structural fuel

/-- Entry loop of `byml::Parser::ParseArrayNode`: one type byte per element,
then a 4-byte cell per element starting at the 4-aligned values offset. -/
def parseBymlArrayEntries (fuel : Nat) (hkt strT : RStringTable) (r : BinaryReader)
    (offset size valuesOffset i : Nat) (acc : List Byml) :
    Except Err (List Byml × BinaryReader) :=
  match fuel with
  | 0 => .error .stackOverflow
  | f + 1 =>
    if i < size then
      match r.readNat 1 (some (offset + 4 + i)) with
      | none => .error .badOptionalAccess
      | some (t, r) => do
        let (child, r) ← parseBymlChildNode f hkt strT r (valuesOffset + 4 * i) t
        parseBymlArrayEntries f hkt strT r offset size valuesOffset (i + 1) (acc ++ [child])
    else .ok (acc, r)
termination_by structural fuel

/-- Entry loop of `byml::Parser::ParseDictionaryNode`: 24-bit key index, type
byte, key lookup, and the 4-byte value cell at `entry_offset + 4`. -/
def parseBymlDictEntries (fuel : Nat) (hkt strT : RStringTable) (r : BinaryReader)
    (offset size i : Nat) (acc : List (List Nat × Byml)) :
    Except Err (List (List Nat × Byml) × BinaryReader) :=
  match fuel with
  | 0 => .error .stackOverflow
  | f + 1 =>
    if i < size then
      match r.readU24 (some (offset + 4 + 8 * i)) with
      | none => .error .badOptionalAccess
      | some (nameIdx, r) =>
        match r.readNat 1 (some (offset + 4 + 8 * i + 3)) with
        | none => .error .badOptionalAccess
        | some (t, r) => do
          let (key, r) ← hkt.getString r nameIdx
          let (child, r) ← parseBymlChildNode f hkt strT r (offset + 4 + 8 * i + 4) t
          parseBymlDictEntries f hkt strT r offset size (i + 1) (dictEmplace key child acc)
    else .ok (acc, r)
termination_by structural fuel

/-- Entry loop of `byml::Parser::ParseHash32Node`: type bytes live after the
8-byte entries; the 4-byte key sits at `offset + 4 + 8 i` and the value cell
at `offset + 8 + 8 i`. -/
def parseBymlHash32Entries (fuel : Nat) (hkt strT : RStringTable) (r : BinaryReader)
    (offset size i : Nat) (acc : List (Nat × Byml)) :
    Except Err (List (Nat × Byml) × BinaryReader) :=
  match fuel with
  | 0 => .error .stackOverflow
  | f + 1 =>
    if i < size then
      match r.readNat 1 (some (offset + 4 + 8 * size + i)) with
      | none => .error .badOptionalAccess
      | some (t, r) =>
        match r.readNat 4 (some (offset + 4 + 8 * i)) with
        | none => .error .undefinedBehaviour
        | some (key, r) => do
          let (child, r) ← parseBymlChildNode f hkt strT r (offset + 8 + 8 * i) t
          parseBymlHash32Entries f hkt strT r offset size (i + 1) (hashEmplace key child acc)
    else .ok (acc, r)
termination_by structural fuel

/-- Entry loop of `byml::Parser::ParseHash64Node`: the 8-byte key sits at
`offset + 4 + 12 i`, and the source reads the value cell at
`offset + 8 + 12 i` — preserved verbatim here. -/
def parseBymlHash64Entries (fuel : Nat) (hkt strT : RStringTable) (r : BinaryReader)
    (offset size i : Nat) (acc : List (Nat × Byml)) :
    Except Err (List (Nat × Byml) × BinaryReader) :=
  match fuel with
  | 0 => .error .stackOverflow
  | f + 1 =>
    if i < size then
      match r.readNat 1 (some (offset + 4 + 12 * size + i)) with
      | none => .error .badOptionalAccess
      | some (t, r) =>
        match r.readNat 8 (some (offset + 4 + 12 * i)) with
        | none => .error .undefinedBehaviour
        | some (key, r) => do
          let (child, r) ← parseBymlChildNode f hkt strT r (offset + 8 + 12 * i) t
          parseBymlHash64Entries f hkt strT r offset size (i + 1) (hashEmplace key child acc)
    else .ok (acc, r)
termination_by structural fuel

end

/-- `Byml::FromBinary`: header validation (magic, version, tables, path-table
rejection) per `byml::Parser`'s constructor, then `Parser::Parse`.  The four
fixed-offset header reads are guarded by the 16-byte length check, so their
optional dereferences cannot fail and the reads are written directly; the
constructor ends with `Seek(header_end)`, so `Parse` starts from a reader
positioned at offset 16. -/
def bymlFromBinary (data : List Nat) : Except Err Byml :=
  if data.length < 16 then .error .invalidData
  else
    let isBig := data.take 2 == [0x42, 0x59]
    let isLittle := data.take 2 == [0x59, 0x42]
    if !(isBig || isLittle) then .error .invalidData
    else
      let endian := if isBig then Endianness.big else Endianness.little
      let version := bytesToNat endian ((data.drop 2).take 2)
      if isValidVersion version = false then .error .invalidData
      else
        let hktOff := bytesToNat endian ((data.drop 4).take 4)
        let strOff := bytesToNat endian ((data.drop 8).take 4)
        let rootOff := bytesToNat endian ((data.drop 12).take 4)
        do
          let (hkt, _) ← rStringTableInit ⟨data, 0, endian⟩ hktOff
          let (strT, _) ← rStringTableInit ⟨data, 0, endian⟩ strOff
          let rootType? :=
            (BinaryReader.readNat ⟨data, 0, endian⟩ 1 (some rootOff)).map (·.1)
          if rootOff ≠ 0 ∧ rootType? = some 0xc3 then .error .unsupported
          else if rootOff = 0 then .ok .null
          else do
            let (b, _) ← parseBymlContainerNode (3 * data.length + 16) hkt strT
              ⟨data, 16, endian⟩ rootOff
            .ok b

/-- `Byml::GetUInt64` (src/src/sarc.cpp, second unit): `Int` and `Int64` pass
through `CheckPositiveAndReturn`, `UInt` widens, `UInt64` is returned as is,
and every other node type raises `TypeError`. -/
def Byml.getUInt64 : Byml → Except Err Nat
  | .int v => if 0 ≤ v then .ok v.toNat else .error .typeError
  | .uint v => .ok v
  | .uint64 v => .ok v
  | .int64 v => if 0 ≤ v then .ok v.toNat else .error .typeError
  | _ => .error .typeError

/-- Integer-node discriminator: exactly the node types `GetUInt64` accepts
before positivity checking. -/
def Byml.isIntegerNode : Byml → Bool
  | .int _ => true
  | .uint _ => true
  | .int64 _ => true
  | .uint64 _ => true
  | _ => false

/-! ## SARC reader (src/src/sarc.cpp, first unit) -/

/-- `sarc::ResHeader` (0x14 bytes). -/
structure SarcResHeader where
  magic : List Nat
  headerSize : Nat
  bom : Nat
  fileSize : Nat
  dataOffset : Nat
  version : Nat
  reserved : Nat
deriving DecidableEq, Repr

/-- `Read<sarc::ResHeader>`: one bounds check for the whole 0x14-byte struct,
then the endian-swapped fields. -/
def readSarcResHeader (r : BinaryReader) : Option (SarcResHeader × BinaryReader) :=
  if r.offset + 0x14 > r.data.length then none
  else
    let at_ := fun (o w : Nat) => bytesToNat r.endian ((r.data.drop (r.offset + o)).take w)
    some ({ magic := (r.data.drop r.offset).take 4
            headerSize := at_ 4 2
            bom := at_ 6 2
            fileSize := at_ 8 4
            dataOffset := at_ 12 4
            version := at_ 16 2
            reserved := at_ 18 2 }, { r with offset := r.offset + 0x14 })

/-- `sarc::ResFatHeader` (0xC bytes). -/
structure SarcResFatHeader where
  magic : List Nat
  headerSize : Nat
  numFiles : Nat
  hashMultiplier : Nat
deriving DecidableEq, Repr

/-- `Read<sarc::ResFatHeader>`. -/
def readSarcResFatHeader (r : BinaryReader) : Option (SarcResFatHeader × BinaryReader) :=
  if r.offset + 0xC > r.data.length then none
  else
    let at_ := fun (o w : Nat) => bytesToNat r.endian ((r.data.drop (r.offset + o)).take w)
    some ({ magic := (r.data.drop r.offset).take 4
            headerSize := at_ 4 2
            numFiles := at_ 6 2
            hashMultiplier := at_ 8 4 }, { r with offset := r.offset + 0xC })

/-- `sarc::ResFatEntry` (0x10 bytes). -/
structure SarcResFatEntry where
  nameHash : Nat
  relNameOptionalOffset : Nat
  dataBegin : Nat
  dataEnd : Nat
deriving DecidableEq, Repr

/-- `Read<sarc::ResFatEntry>(offset)`. -/
def readSarcResFatEntry (r : BinaryReader) (offset : Nat) :
    Option (SarcResFatEntry × BinaryReader) :=
  if offset + 0x10 > r.data.length then none
  else
    let at_ := fun (o : Nat) => bytesToNat r.endian ((r.data.drop (offset + o)).take 4)
    some ({ nameHash := at_ 0
            relNameOptionalOffset := at_ 4
            dataBegin := at_ 8
            dataEnd := at_ 12 }, { r with offset := offset + 0x10 })

/-- `sarc::ResFntHeader` (8 bytes), read at an explicit offset. -/
structure SarcResFntHeader where
  magic : List Nat
  headerSize : Nat
  reserved : Nat
deriving DecidableEq, Repr

/-- `Read<sarc::ResFntHeader>(offset)`. -/
def readSarcResFntHeader (r : BinaryReader) (offset : Nat) :
    Option (SarcResFntHeader × BinaryReader) :=
  if offset + 8 > r.data.length then none
  else
    let at_ := fun (o w : Nat) => bytesToNat r.endian ((r.data.drop (offset + o)).take w)
    some ({ magic := (r.data.drop offset).take 4
            headerSize := at_ 4 2
            reserved := at_ 6 2 }, { r with offset := offset + 8 })

/-- Parsed SARC reader state (the `Sarc` members set by the constructor). -/
structure SarcState where
  data : List Nat
  endian : Endianness
  numFiles : Nat
  entriesOffset : Nat
  hashMultiplier : Nat
  dataOffset : Nat
  namesOffset : Nat
deriving DecidableEq, Repr

/-- `sarc::HashName`: `hash = hash * multiplier + c` over the name bytes,
32-bit wrapping. -/
def sarcHashName (multiplier : Nat) (name : List Nat) : Nat :=
  name.foldl (fun h c => (h * multiplier + c) % 2 ^ 32) 0

/-- The `Sarc` constructor: read the header once with big endianness to get
the BOM (`.value()` — a truncated buffer surfaces `std::bad_optional_access`),
re-read with the derived endianness, then validate the SARC/SFAT/SFNT
headers.  The file count is limited to 14 bits and the name table must not
overlap the data section. -/
def sarcOpen (data : List Nat) : Except Err SarcState :=
  match readSarcResHeader ⟨data, 0, .big⟩ with
  | none => .error .badOptionalAccess
  | some (h0, _) =>
    let endian := byteOrderMarkToEndianness h0.bom
    match readSarcResHeader ⟨data, 0, endian⟩ with
    | none => .error .undefinedBehaviour
    | some (header, r) =>
      if header.magic ≠ [0x53, 0x41, 0x52, 0x43] then .error .invalidData
      else if header.version ≠ 0x0100 then .error .invalidData
      else if header.headerSize ≠ 0x14 then .error .invalidData
      else
        match readSarcResFatHeader r with
        | none => .error .badOptionalAccess
        | some (fatHeader, r) =>
          if fatHeader.magic ≠ [0x53, 0x46, 0x41, 0x54] then .error .invalidData
          else if fatHeader.headerSize ≠ 0xC then .error .invalidData
          else if fatHeader.numFiles / 2 ^ 0xE ≠ 0 then .error .invalidData
          else
            let entriesOffset := r.offset
            let fntHeaderOffset := entriesOffset + 0x10 * fatHeader.numFiles
            match readSarcResFntHeader r fntHeaderOffset with
            | none => .error .badOptionalAccess
            | some (fntHeader, r) =>
              if fntHeader.magic ≠ [0x53, 0x46, 0x4E, 0x54] then .error .invalidData
              else if fntHeader.headerSize ≠ 8 then .error .invalidData
              else
                let namesOffset := r.offset
                if header.dataOffset < namesOffset then .error .invalidData
                else .ok { data := data, endian := endian,
                           numFiles := fatHeader.numFiles,
                           entriesOffset := entriesOffset,
                           hashMultiplier := fatHeader.hashMultiplier,
                           dataOffset := header.dataOffset,
                           namesOffset := namesOffset }

/-- A file view handed out by the reader (`Sarc::File`). -/
structure SarcFile where
  name : List Nat
  fileData : List Nat
deriving DecidableEq, Repr

/-- `tcb::span::subspan(off, len)`: undefined behaviour when the range leaves
the buffer. -/
def subspan (data : List Nat) (off len : Nat) : Except Err (List Nat) :=
  if off + len ≤ data.length then .ok ((data.drop off).take len)
  else .error .undefinedBehaviour

/-- `Sarc::GetFile(u16 index)`: the source guards with
`index > m_num_files` (not `>=`), reads the FAT entry at
`entries_offset + 0x10 * index`, resolves the optional name, and hands out a
subspan of `[data_offset + begin, data_offset + end)`.  The entry-size
subtraction wraps as u32, as in the C++. -/
def sarcGetFile (s : SarcState) (index : Nat) : Except Err SarcFile :=
  if index > s.numFiles then .error .outOfRange
  else
    let r : BinaryReader := ⟨s.data, 0, s.endian⟩
    let entryOffset := s.entriesOffset + 0x10 * index
    match readSarcResFatEntry r entryOffset with
    | none => .error .badOptionalAccess
    | some (entry, r) => do
      let name ←
        if entry.relNameOptionalOffset ≠ 0 then
          r.readString (s.namesOffset + entry.relNameOptionalOffset % 2 ^ 24 * 4) none
        else .ok []
      let len := (entry.dataEnd + 2 ^ 32 - entry.dataBegin) % 2 ^ 32
      let fileData ← subspan s.data (s.dataOffset + entry.dataBegin) len
      .ok { name := name, fileData := fileData }

/-- `IsValidAlignment`: nonzero power of two. -/
def isValidAlignment (a : Nat) : Bool := a ≠ 0 && a &&& (a - 1) = 0

/-- Entry loop of `Sarc::GuessMinAlignment`, folding
`gcd := std::gcd(gcd, data_offset + entry.data_begin)` over the FAT entries
(each read through `.value()`). -/
def sarcGcdLoop (s : SarcState) : Nat → Nat → Nat → Except Err Nat
  | 0, _, acc => .ok acc
  | remaining + 1, i, acc =>
    match readSarcResFatEntry ⟨s.data, 0, s.endian⟩ (s.entriesOffset + 0x10 * i) with
    | none => .error .badOptionalAccess
    | some (entry, _) =>
      sarcGcdLoop s remaining (i + 1) (Nat.gcd acc (s.dataOffset + entry.dataBegin))

/-- `Sarc::GuessMinAlignment`: the GCD accumulator is seeded with
`MinAlignment = 4` exactly as in the source, and the result falls back to 4
when it is not a power of two. -/
def sarcGuessMinAlignment (s : SarcState) : Except Err Nat := do
  let gcd ← sarcGcdLoop s s.numFiles 0 4
  if isValidAlignment gcd = false then .ok 4 else .ok gcd

/-! ## Yaz0 codec (src/src/yaz0.cpp) -/

/-- Yaz0 header bytes: magic, big-endian uncompressed size, big-endian
alignment hint, four reserved zero bytes (`yaz0::Header`). -/
def yaz0HeaderBytes (uncompressedSize dataAlignment : Nat) : List Nat :=
  [0x59, 0x61, 0x7A, 0x30] ++ natToBytes .big 4 uncompressedSize
    ++ natToBytes .big 4 dataAlignment ++ [0, 0, 0, 0]

/-- `yaz0::GetHeader`: `none` when the buffer is shorter than the header or
the magic does not match; otherwise the two big-endian size fields. -/
def yaz0GetHeader (src : List Nat) : Option (Nat × Nat) :=
  if src.length < 16 then none
  else if src.take 4 ≠ [0x59, 0x61, 0x7A, 0x30] then none
  else some (bytesToNatBE ((src.drop 4).take 4), bytesToNatBE ((src.drop 8).take 4))

/-- One `(dist, lc)` callback from the patched zlib-ng compressor:
`dist = 0` marks a literal byte, otherwise a back-reference. -/
inductive ZlibEvent where
  | lit (b : Nat)
  | ref (dist lc : Nat)
deriving DecidableEq, Repr

/-- State of `yaz0::GroupWriter`: output buffer, pending chunk count, group
header bits, and the offset of the reserved group-header byte. -/
structure GroupWriter where
  result : List Nat
  pendingChunks : Nat
  groupHeader : Nat
  groupHeaderOffset : Nat
deriving DecidableEq, Repr

/-- Overwrite one byte of a buffer (the `m_result[offset] = value` stores). -/
def setByte (l : List Nat) (idx v : Nat) : List Nat :=
  l.take idx ++ [v] ++ l.drop (idx + 1)

/-- `GroupWriter::Reset`: clear the bits and eagerly reserve the next group
header byte by pushing 0xFF. -/
def GroupWriter.reset (g : GroupWriter) : GroupWriter :=
  { result := g.result ++ [0xFF]
    pendingChunks := 0
    groupHeader := 0
    groupHeaderOffset := g.result.length }

/-- `GroupWriter::WriteMatch`: two-byte encoding for lengths below 18,
three-byte encoding (capped at `MaximumMatchLength = 0x111`) otherwise. -/
def GroupWriter.writeMatch (g : GroupWriter) (distance length : Nat) : GroupWriter :=
  if length < 18 then
    { g with result := g.result ++ [((length - 2) * 16 ||| distance / 256 % 256) % 256,
                                    distance % 256] }
  else
    let actualLength := min 0x111 length
    { g with result := g.result ++ [distance / 256 % 256, distance % 256,
                                    (actualLength - 0x12) % 256] }

/-- `GroupWriter::HandleZlibMatch`: record the literal/reference bit, emit
the chunk bytes, and flush the group header after eight chunks. -/
def GroupWriter.handleZlibMatch (g : GroupWriter) (e : ZlibEvent) : GroupWriter :=
  let g :=
    match e with
    | .lit b =>
      { g with groupHeader := g.groupHeader ||| 2 ^ (7 - g.pendingChunks)
               result := g.result ++ [b % 256] }
    | .ref dist lc => g.writeMatch (dist - 1) (lc + 3)
  let g := { g with pendingChunks := g.pendingChunks + 1 }
  if g.pendingChunks = 8 then
    ({ g with result := setByte g.result g.groupHeaderOffset g.groupHeader }).reset
  else g

/-- `GroupWriter::Finalise`: write the header byte of a partially filled
final group. -/
def GroupWriter.finalise (g : GroupWriter) : List Nat :=
  if g.pendingChunks ≠ 0 then setByte g.result g.groupHeaderOffset g.groupHeader
  else g.result

/-- Modelled from the spec: the `(dist, lc)` stream produced by the patched
zlib-ng match finder (lib/zlib-ng, which is not under src/).  The spec
delegates literal-versus-match choices entirely to the match finder and
promises no particular ratio, so an all-literal stream is a valid model; for
the empty input — the only input the claims evaluate the compressor on —
every correct stream is empty. -/
def zlibMatchEvents (src : List Nat) : List ZlibEvent :=
  src.map .lit

/-- `yaz0::Compress(src, data_alignment, level)`: the 16-byte header followed
by the group-writer output over the match stream.  The `GroupWriter`
constructor calls `Reset`, which pushes the first 0xFF placeholder before any
chunk is handled. -/
def yaz0Compress (src : List Nat) (dataAlignment level : Nat) : List Nat :=
  let g : GroupWriter := GroupWriter.reset
    ⟨yaz0HeaderBytes src.length dataAlignment, 0, 0, 0⟩
  let g := (zlibMatchEvents src).foldl GroupWriter.handleZlibMatch g
  g.finalise

/-- Input byte read in the decompression loop: `reader.Read<u8, Safe>()`
followed by `.value()`.  With `Safe` the failed read surfaces
`std::bad_optional_access`; without it the unchecked access is undefined
behaviour. -/
def yaz0ReadU8 (safe : Bool) (src : List Nat) (off : Nat) : Except Err Nat :=
  if off + 1 ≤ src.length then .ok (src.getD off 0)
  else if safe then .error .badOptionalAccess else .error .undefinedBehaviour

/-- Two-byte big-endian input read in the decompression loop. -/
def yaz0ReadU16 (safe : Bool) (src : List Nat) (off : Nat) : Except Err Nat :=
  if off + 2 ≤ src.length then .ok (src.getD off 0 * 256 + src.getD (off + 1) 0)
  else if safe then .error .badOptionalAccess else .error .undefinedBehaviour

/-- Byte-by-byte overlapping back-reference copy
(`for i < length: *dst_it++ = base[i]`): the read position starts at `base`
and advances with each appended byte, so overlapping ranges replicate the
freshly written bytes exactly as in the source. -/
def yaz0Copy : List Nat → Nat → Nat → List Nat
  | out, _, 0 => out
  | out, readPos, n + 1 => yaz0Copy (out ++ [out.getD readPos 0]) (readPos + 1) n

/-- Chunk loop of `yaz0::Decompress<Safe>`: refill the group header when the
eight chunks are exhausted, then copy a literal or decode a back-reference.
The copy bounds check (`base < dst.begin() || dst_it + length > dst.end()`)
is performed unconditionally in the source — for the unsafe variant too —
and throws `std::invalid_argument`. -/
def yaz0Loop (safe : Bool) (src : List Nat) (dstLen : Nat) :
    Nat → Nat → List Nat → Nat → Nat → Except Err (List Nat)
  | 0, _, _, _, _ => .error .stackOverflow
  | fuel + 1, srcOff, out, groupHeader, remainingChunks =>
    if out.length ≥ dstLen then .ok out
    else do
      let (groupHeader, remainingChunks, srcOff) ←
        if remainingChunks = 0 then do
          let gh ← yaz0ReadU8 safe src srcOff
          pure (gh, 8, srcOff + 1)
        else pure (groupHeader, remainingChunks, srcOff)
      if groupHeader &&& 0x80 ≠ 0 then do
        let b ← yaz0ReadU8 safe src srcOff
        yaz0Loop safe src dstLen fuel (srcOff + 1) (out ++ [b])
          (groupHeader * 2 % 256) (remainingChunks - 1)
      else do
        let pair ← yaz0ReadU16 safe src srcOff
        let srcOff := srcOff + 2
        let distance := (pair &&& 0x0FFF) + 1
        let (length, srcOff) ←
          if pair / 2 ^ 12 ≠ 0 then pure (pair / 2 ^ 12 + 2, srcOff)
          else do
            let b ← yaz0ReadU8 safe src srcOff
            pure (b + 16 + 2, srcOff + 1)
        if out.length < distance ∨ out.length + length > dstLen then
          .error .invalidArgument
        else
          yaz0Loop safe src dstLen fuel srcOff
            (yaz0Copy out (out.length - distance) length)
            (groupHeader * 2 % 256) (remainingChunks - 1)

/-- `yaz0::Decompress<Safe>(src, dst)`: skip the header and run the chunk
loop over a destination of `dstLen` bytes.  Every loop iteration appends at
least one output byte, so `dstLen + 1` fuel is never exhausted. -/
def yaz0DecompressInto (safe : Bool) (src : List Nat) (dstLen : Nat) :
    Except Err (List Nat) :=
  yaz0Loop safe src dstLen (dstLen + 1) 16 [] 0 0

/-- The safe entry point `yaz0::Decompress(src, dst)`. -/
def yaz0DecompressSafe (src : List Nat) (dstLen : Nat) : Except Err (List Nat) :=
  yaz0DecompressInto true src dstLen

/-- `yaz0::DecompressUnsafe(src, dst)` (the `Safe = false` instantiation). -/
def yaz0DecompressUnsafe (src : List Nat) (dstLen : Nat) : Except Err (List Nat) :=
  yaz0DecompressInto false src dstLen

/-- The allocating `yaz0::Decompress(src)`: a missing or bad header returns
an empty vector; otherwise the output buffer has exactly the advertised
uncompressed size. -/
def yaz0Decompress (src : List Nat) : Except Err (List Nat) :=
  match yaz0GetHeader src with
  | none => .ok []
  | some (uncompressedSize, _) => yaz0DecompressSafe src uncompressedSize

/-! ## AAMP v2 parameter archives (oead/aamp.h; codec in src/unnamed/part_006) -/

/-- `Curve` from oead/types.h: two u32 fields and 30 floats (bit patterns). -/
structure ACurve where
  a : Nat
  b : Nat
  floats : List Nat
deriving DecidableEq, Repr

/-- `aamp::Parameter`: the 21 typed variants in the order of
`Parameter::Type` (so the constructor index is the wire type byte).  Floats
carry raw 32-bit patterns; strings are byte lists. -/
inductive AParam where
  | bool (v : Bool)
  | f32 (bits : Nat)
  | int (v : Int)
  | vec2 (x y : Nat)
  | vec3 (x y z : Nat)
  | vec4 (x y z t : Nat)
  | color (r g b a : Nat)
  | string32 (s : List Nat)
  | string64 (s : List Nat)
  | curve1 (cs : List ACurve)
  | curve2 (cs : List ACurve)
  | curve3 (cs : List ACurve)
  | curve4 (cs : List ACurve)
  | bufferInt (v : List Int)
  | bufferF32 (v : List Nat)
  | string256 (s : List Nat)
  | quat (a b c d : Nat)
  | u32 (v : Nat)
  | bufferU32 (v : List Nat)
  | bufferBinary (v : List Nat)
  | stringRef (s : List Nat)
deriving DecidableEq, Repr

/-- `Parameter::GetType` as the wire type byte (`Parameter::Type` values). -/
def AParam.typeNat : AParam → Nat
  | .bool _ => 0
  | .f32 _ => 1
  | .int _ => 2
  | .vec2 _ _ => 3
  | .vec3 _ _ _ => 4
  | .vec4 _ _ _ _ => 5
  | .color _ _ _ _ => 6
  | .string32 _ => 7
  | .string64 _ => 8
  | .curve1 _ => 9
  | .curve2 _ => 10
  | .curve3 _ => 11
  | .curve4 _ => 12
  | .bufferInt _ => 13
  | .bufferF32 _ => 14
  | .string256 _ => 15
  | .quat _ _ _ _ => 16
  | .u32 _ => 17
  | .bufferU32 _ => 18
  | .bufferBinary _ => 19
  | .stringRef _ => 20

/-- `aamp::IsStringType` (String32/String64/String256/StringRef). -/
def isStringTypeNat (t : Nat) : Bool := t = 7 || t = 8 || t = 15 || t = 20

/-- `aamp::IsBufferType` (BufferInt/BufferU32/BufferF32/BufferBinary). -/
def isBufferTypeNat (t : Nat) : Bool := t = 13 || t = 14 || t = 18 || t = 19

/-- `Parameter::GetStringView`: the string bytes, or `TypeError` for
non-string parameters. -/
def AParam.stringView : AParam → Except Err (List Nat)
  | .string32 s => .ok s
  | .string64 s => .ok s
  | .string256 s => .ok s
  | .stringRef s => .ok s
  | _ => .error .typeError

/-- Little-endian bytes of one `Curve` (u32 a, u32 b, 30 floats). -/
def curveBytes (c : ACurve) : List Nat :=
  natToBytes .little 4 c.a ++ natToBytes .little 4 c.b
    ++ (c.floats.map (natToBytes .little 4)).flatten

/-- `WriteBuffer`: u32 element count followed by the elements. -/
def bufferBytes (width : Nat) (elems : List Nat) : List Nat :=
  natToBytes .little 4 elems.length ++ (elems.map (natToBytes .little width)).flatten

/-- The temporary-buffer payload written by
`aamp::WriteContext::WriteParameterData`'s `util::Match` visitor (the ToBinary
writer is always little-endian).  String parameters never reach this point. -/
def aParamPayloadBytes : AParam → List Nat
  | .bool v => natToBytes .little 4 (if v then 1 else 0)
  | .f32 bits => natToBytes .little 4 bits
  | .int v => natToBytes .little 4 (toUnsigned 4 v)
  | .vec2 x y => natToBytes .little 4 x ++ natToBytes .little 4 y
  | .vec3 x y z => natToBytes .little 4 x ++ natToBytes .little 4 y ++ natToBytes .little 4 z
  | .vec4 x y z t => natToBytes .little 4 x ++ natToBytes .little 4 y
      ++ natToBytes .little 4 z ++ natToBytes .little 4 t
  | .color r g b a => natToBytes .little 4 r ++ natToBytes .little 4 g
      ++ natToBytes .little 4 b ++ natToBytes .little 4 a
  | .quat a b c d => natToBytes .little 4 a ++ natToBytes .little 4 b
      ++ natToBytes .little 4 c ++ natToBytes .little 4 d
  | .u32 v => natToBytes .little 4 v
  | .curve1 cs => (cs.map curveBytes).flatten
  | .curve2 cs => (cs.map curveBytes).flatten
  | .curve3 cs => (cs.map curveBytes).flatten
  | .curve4 cs => (cs.map curveBytes).flatten
  | .bufferInt v => bufferBytes 4 (v.map (toUnsigned 4))
  | .bufferF32 v => bufferBytes 4 v
  | .bufferU32 v => bufferBytes 4 v
  | .bufferBinary v => bufferBytes 1 v
  | .string32 _ => []
  | .string64 _ => []
  | .string256 _ => []
  | .stringRef _ => []

/-- `aamp::ParameterObject`: an insertion-ordered map from name hash to
parameter (`tsl::ordered_map`). -/
structure AObject where
  params : List (Nat × AParam)
deriving DecidableEq, Repr

/-- `aamp::ParameterList`: insertion-ordered maps of objects and child
lists. -/
inductive AList where
  | mk (objects : List (Nat × AObject)) (lists : List (Nat × AList))

/-- Objects of a parameter list. -/
def AList.objects : AList → List (Nat × AObject)
  | .mk o _ => o

/-- Child lists of a parameter list. -/
def AList.lists : AList → List (Nat × AList)
  | .mk _ l => l

mutual

/-- Node count of a parameter-list tree (recursion-depth fuel bound). -/
def AList.treeSize : AList → Nat
  | .mk _ lists => 1 + aListTreeSizeChildren lists

/-- Node count of a list's children. -/
def aListTreeSizeChildren : List (Nat × AList) → Nat
  | [] => 0
  | (_, l) :: xs => l.treeSize + aListTreeSizeChildren xs

end

/-- `aamp::ParameterIO`: root list plus data version and type string. -/
structure APio where
  version : Nat
  typ : List Nat
  root : AList

/-- `ParameterIO::ParamRootKey = Name("param_root")`. -/
def aampParamRootKey : Nat :=
  crc32 [0x70, 0x61, 0x72, 0x61, 0x6D, 0x5F, 0x72, 0x6F, 0x6F, 0x74]

/-- `Name("DemoAIActionIdx")`, the BotW AIProgram marker checked by
`CollectParameters`. -/
def aampDemoAIActionIdx : Nat :=
  crc32 [0x44, 0x65, 0x6D, 0x6F, 0x41, 0x49, 0x41, 0x63, 0x74, 0x69, 0x6F, 0x6E,
         0x49, 0x64, 0x78]

/-- `tsl::ordered_map::emplace`: append, keeping the existing entry when the
key is already present. -/
def omEmplace (k : Nat) (v : α) (m : List (Nat × α)) : List (Nat × α) :=
  if m.any (fun p => p.1 = k) then m else m ++ [(k, v)]

/-- Write a `width`-byte integer at an absolute position, preserving the
cursor (`RunAt` + `Write`). -/
def BinaryWriter.writeNatAt (w : BinaryWriter) (width pos v : Nat) : BinaryWriter :=
  (((w.seek pos).writeNat width v).seek w.offset)

/-- Identifying path of a parameter (`(list path, object index, parameter
index)`); paths play the role the node addresses play in the C++ `offsets`
map — both are in bijection with tree positions. -/
abbrev ParamPath := List Nat × Nat × Nat

/-- State of `aamp::WriteContext`. -/
structure AampCtx where
  writer : BinaryWriter
  numLists : Nat
  numObjects : Nat
  numParameters : Nat
  listOffsets : List (List Nat × Nat)
  objOffsets : List ((List Nat × Nat) × Nat)
  paramOffsets : List (ParamPath × Nat)
  stringOffsets : List (List Nat × Nat)
deriving Repr

/-- `offsets.at` for a list node (`std::out_of_range` when absent — never hit
because every node is registered before it is patched). -/
def AampCtx.listOffsetAt (ctx : AampCtx) (path : List Nat) : Except Err Nat :=
  match ctx.listOffsets.find? (fun p => p.1 = path) with
  | some p => .ok p.2
  | none => .error .outOfRange

/-- `offsets.at` for an object node. -/
def AampCtx.objOffsetAt (ctx : AampCtx) (path : List Nat × Nat) : Except Err Nat :=
  match ctx.objOffsets.find? (fun p => p.1 = path) with
  | some p => .ok p.2
  | none => .error .outOfRange

/-- `offsets.at` for a parameter node. -/
def AampCtx.paramOffsetAt (ctx : AampCtx) (path : ParamPath) : Except Err Nat :=
  match ctx.paramOffsets.find? (fun p => p.1 = path) with
  | some p => .ok p.2
  | none => .error .outOfRange

/-- `CompactOffset::Set` + `Write` at an absolute position: the scaled-by-4
relative offset must be 4-aligned and within range
(`std::invalid_argument` otherwise). -/
def aampWriteCompactAt (w : BinaryWriter) (width pos value maxValue : Nat) :
    Except Err BinaryWriter :=
  if value % 4 ≠ 0 ∨ value > maxValue then .error .invalidArgument
  else .ok (w.writeNatAt width pos (value / 4))

/-- `WriteContext::WriteOffsetForParent`: back-patch a 16-bit compact offset
field of a list or object header with `Tell() - parent_offset`. -/
def aampWriteOffsetForParent (ctx : AampCtx) (parentOffset fieldOff : Nat) :
    Except Err AampCtx := do
  let w ← aampWriteCompactAt ctx.writer 2 (parentOffset + fieldOff)
    (ctx.writer.offset - parentOffset) (4 * 65535)
  .ok { ctx with writer := w }

/-- `WriteContext::WriteList`: register the list's offset, bump the count and
emit the 12-byte `ResParameterList` header (the two compact offset fields are
back-patched later; they are emitted as zero placeholders here, standing for
the indeterminate bytes the C++ leaves before patching). -/
def aampWriteList (ctx : AampCtx) (nameHash : Nat) (l : AList) (path : List Nat) :
    AampCtx :=
  let w := ctx.writer
  let off := w.offset
  let w := ((((w.writeNat 4 nameHash).writeNat 2 0).writeNat 2 l.lists.length).writeNat 2
    0).writeNat 2 l.objects.length
  { ctx with writer := w
             numLists := ctx.numLists + 1
             listOffsets := ctx.listOffsets ++ [(path, off)] }

/-- `WriteContext::WriteObject`: register the object's offset and emit the
8-byte `ResParameterObj` header. -/
def aampWriteObject (ctx : AampCtx) (nameHash : Nat) (obj : AObject)
    (path : List Nat × Nat) : AampCtx :=
  let w := ctx.writer
  let off := w.offset
  let w := ((w.writeNat 4 nameHash).writeNat 2 0).writeNat 2 obj.params.length
  { ctx with writer := w
             numObjects := ctx.numObjects + 1
             objOffsets := ctx.objOffsets ++ [(path, off)] }

/-- `WriteContext::WriteParameter`: register the parameter's offset and emit
the 8-byte `ResParameter` header (24-bit data offset back-patched later). -/
def aampWriteParameter (ctx : AampCtx) (nameHash : Nat) (param : AParam)
    (path : ParamPath) : AampCtx :=
  let w := ctx.writer
  let off := w.offset
  let w := ((w.writeNat 4 nameHash).writeNat 3 0).writeNat 1 param.typeNat
  { ctx with writer := w
             numParameters := ctx.numParameters + 1
             paramOffsets := ctx.paramOffsets ++ [(path, off)] }

/-- Header-emission loop over a list's children (first half of the `write`
lambda in `WriteContext::WriteLists`). -/
def aampWriteChildListHeaders (ctx : AampCtx) (path : List Nat) (i : Nat) :
    List (Nat × AList) → AampCtx
  | [] => ctx
  | (name, child) :: rest =>
    aampWriteChildListHeaders (aampWriteList ctx name child (path ++ [i])) path (i + 1) rest

mutual

/-- The recursive `write` lambda of `WriteContext::WriteLists`: patch this
list's `lists_rel_offset`, emit all child-list headers, then recurse into
each child. -/
def aampWriteListsRec (fuel : Nat) (ctx : AampCtx) (l : AList) (path : List Nat) :
    Except Err AampCtx :=
  match fuel with
  | 0 => .error .stackOverflow
  | f + 1 => do
    let parentOffset ← ctx.listOffsetAt path
    let ctx ← aampWriteOffsetForParent ctx parentOffset 4
    let ctx := aampWriteChildListHeaders ctx path 0 l.lists
    aampWriteListsRecChildren f ctx path 0 l.lists
termination_by structural fuel

/-- Recursion half of the `write` lambda (the second loop over `list.lists`). -/
def aampWriteListsRecChildren (fuel : Nat) (ctx : AampCtx) (path : List Nat) (i : Nat)
    (children : List (Nat × AList)) : Except Err AampCtx :=
  match fuel with
  | 0 => .error .stackOverflow
  | f + 1 =>
    match children with
    | [] => .ok ctx
    | (_, child) :: rest => do
      let ctx ← aampWriteListsRec f ctx child (path ++ [i])
      aampWriteListsRecChildren f ctx path (i + 1) rest
termination_by structural fuel

end

/-- Object-header loop of `WriteContext::WriteObjects`. -/
def aampWriteObjectHeaders (ctx : AampCtx) (path : List Nat) (j : Nat) :
    List (Nat × AObject) → AampCtx
  | [] => ctx
  | (name, obj) :: rest =>
    aampWriteObjectHeaders (aampWriteObject ctx name obj (path, j)) path (j + 1) rest

mutual

/-- `WriteContext::WriteObjects`: DFS that patches `objects_rel_offset` and
emits a list's object headers before recursing into its child lists. -/
def aampWriteObjectsRec (fuel : Nat) (ctx : AampCtx) (l : AList) (path : List Nat) :
    Except Err AampCtx :=
  match fuel with
  | 0 => .error .stackOverflow
  | f + 1 => do
    let parentOffset ← ctx.listOffsetAt path
    let ctx ← aampWriteOffsetForParent ctx parentOffset 8
    let ctx := aampWriteObjectHeaders ctx path 0 l.objects
    aampWriteObjectsRecChildren f ctx path 0 l.lists
termination_by structural fuel

/-- Child-list loop of `WriteContext::WriteObjects`. -/
def aampWriteObjectsRecChildren (fuel : Nat) (ctx : AampCtx) (path : List Nat) (i : Nat)
    (children : List (Nat × AList)) : Except Err AampCtx :=
  match fuel with
  | 0 => .error .stackOverflow
  | f + 1 =>
    match children with
    | [] => .ok ctx
    | (_, child) :: rest => do
      let ctx ← aampWriteObjectsRec f ctx child (path ++ [i])
      aampWriteObjectsRecChildren f ctx path (i + 1) rest
termination_by structural fuel

end

/-- The two parameter queues of `WriteContext` (non-string, string), each
entry carrying the parameter's path and value. -/
abbrev AampQueues := List (ParamPath × AParam) × List (ParamPath × AParam)

/-- `process_one_object` from `WriteContext::CollectParameters`: queue every
parameter of object `j`, strings separately from the rest. -/
def aampCollectOneObject (l : AList) (path : List Nat) (j : Nat) (acc : AampQueues) :
    AampQueues :=
  match l.objects.get? j with
  | none => acc
  | some (_, obj) =>
    (obj.params.enum.foldl
      (fun acc pp =>
        if isStringTypeNat pp.2.2.typeNat
        then (acc.1, acc.2 ++ [((path, j, pp.1), pp.2.2)])
        else (acc.1 ++ [((path, j, pp.1), pp.2.2)], acc.2))
      acc)

/-- Queue `count` consecutive objects of a list, starting at index `j`. -/
def aampCollectObjectRange (l : AList) (path : List Nat) (j : Nat) :
    Nat → AampQueues → AampQueues
  | 0, acc => acc
  | count + 1, acc =>
    aampCollectObjectRange l path (j + 1) count (aampCollectOneObject l path j acc)

mutual

/-- `do_collect` from `WriteContext::CollectParameters`: at the top level, up
to seven leading objects are processed first (unless the archive is a BotW
AIProgram); then, before recursing into the k-th child list, one local object
is processed when k is even; remaining objects are processed at the end. -/
def aampCollectRec (fuel : Nat) (l : AList) (path : List Nat)
    (processTopObjectsFirst : Bool) (acc : AampQueues) : Except Err AampQueues :=
  match fuel with
  | 0 => .error .stackOverflow
  | f + 1 =>
    let len := l.objects.length
    let isBotwAiprog :=
      match l.objects with
      | [] => false
      | (name, _) :: _ => name == aampDemoAIActionIdx
    let k0 := if processTopObjectsFirst && !isBotwAiprog then min 7 len else 0
    let acc := aampCollectObjectRange l path 0 k0 acc
    match aampCollectChildren f l path 0 k0 isBotwAiprog acc l.lists with
    | .error e => .error e
    | .ok (acc, k) => .ok (aampCollectObjectRange l path k (len - k) acc)
termination_by structural fuel

/-- Child-list loop of `do_collect`, threading the index of the next
unprocessed local object. -/
def aampCollectChildren (fuel : Nat) (l : AList) (path : List Nat) (i k : Nat)
    (isBotwAiprog : Bool) (acc : AampQueues) (children : List (Nat × AList)) :
    Except Err (AampQueues × Nat) :=
  match fuel with
  | 0 => .error .stackOverflow
  | f + 1 =>
    match children with
    | [] => .ok (acc, k)
    | (_, child) :: rest => do
      let (acc, k) :=
        if !isBotwAiprog && i % 2 == 0 && k < l.objects.length
        then (aampCollectOneObject l path k acc, k + 1)
        else (acc, k)
      let acc ← aampCollectRec f child (path ++ [i]) false acc
      aampCollectChildren f l path (i + 1) k isBotwAiprog acc rest
termination_by structural fuel

end

/-- Parameter-header loop of `WriteContext::WriteParameters` over one
object's parameters. -/
def aampWriteParamHeaders (ctx : AampCtx) (path : List Nat) (j p : Nat) :
    List (Nat × AParam) → AampCtx
  | [] => ctx
  | (name, param) :: rest =>
    aampWriteParamHeaders (aampWriteParameter ctx name param (path, j, p))
      path j (p + 1) rest

/-- Object loop of `WriteContext::WriteParameters`: patch each object's
`parameters_rel_offset`, then emit its parameter headers in insertion
order. -/
def aampWriteParamsObjects (ctx : AampCtx) (path : List Nat) (j : Nat) :
    List (Nat × AObject) → Except Err AampCtx
  | [] => .ok ctx
  | (_, obj) :: rest => do
    let parentOffset ← ctx.objOffsetAt (path, j)
    let w ← aampWriteCompactAt ctx.writer 2 (parentOffset + 4)
      (ctx.writer.offset - parentOffset) (4 * 65535)
    let ctx := aampWriteParamHeaders { ctx with writer := w } path j 0 obj.params
    aampWriteParamsObjects ctx path (j + 1) rest

mutual

/-- `WriteContext::WriteParameters`: DFS with child lists handled before the
local objects. -/
def aampWriteParametersRec (fuel : Nat) (ctx : AampCtx) (l : AList) (path : List Nat) :
    Except Err AampCtx :=
  match fuel with
  | 0 => .error .stackOverflow
  | f + 1 => do
    let ctx ← aampWriteParametersRecChildren f ctx path 0 l.lists
    aampWriteParamsObjects ctx path 0 l.objects
termination_by structural fuel

/-- Child-list loop of `WriteContext::WriteParameters`. -/
def aampWriteParametersRecChildren (fuel : Nat) (ctx : AampCtx) (path : List Nat)
    (i : Nat) (children : List (Nat × AList)) : Except Err AampCtx :=
  match fuel with
  | 0 => .error .stackOverflow
  | f + 1 =>
    match children with
    | [] => .ok ctx
    | (_, child) :: rest => do
      let ctx ← aampWriteParametersRec f ctx child (path ++ [i])
      aampWriteParametersRecChildren f ctx path (i + 1) rest
termination_by structural fuel

end

/-- The backwards-compatibility dedup scan of
`WriteContext::WriteParameterData`: walk 4-byte-aligned offsets from the data
section start while the candidate window fits in the buffer and stays within
24-bit-times-4 reach of the parent, returning the first offset whose bytes
equal the payload.  `fuel` bounds the iteration count (one step per 4 bytes
of buffer, so `buffer length + 4` is never exhausted). -/
def aampScanDedup (buffer temp : List Nat) (parentOffset : Nat) :
    Nat → Nat → Option Nat
  | 0, _ => none
  | fuel + 1, offset =>
    if offset + temp.length ≤ buffer.length ∧ offset - parentOffset < 2 ^ 24 * 4 then
      if (buffer.drop offset).take temp.length = temp then some offset
      else aampScanDedup buffer temp parentOffset fuel (offset + 4)
    else none

/-- `WriteContext::WriteParameterData`: serialize the payload to a temporary
buffer, scan the data section for an identical byte run, patch the parent's
24-bit data offset (`data_offset - parent_offset`), and append the payload
only when no match was found.  When a match is found the source reuses the
match offset itself — without re-adding the 4-byte length-prefix skip it
applies to the fresh-write offset of buffer parameters. -/
def aampWriteParameterData (ctx : AampCtx) (ppath : ParamPath) (param : AParam)
    (lookupStart : Nat) : Except Err AampCtx := do
  if isStringTypeNat param.typeNat then .error .logicError
  else
    let temp := aParamPayloadBytes param
    let parentOffset ← ctx.paramOffsetAt ppath
    let fresh := ctx.writer.offset + (if isBufferTypeNat param.typeNat then 4 else 0)
    let found? := aampScanDedup ctx.writer.data temp parentOffset
      (ctx.writer.data.length + 4) lookupStart
    let dataOffset := found?.getD fresh
    let w ← aampWriteCompactAt ctx.writer 3 (parentOffset + 4)
      (dataOffset - parentOffset) (4 * 2 ^ 24)
    let w := match found? with
      | some _ => w
      | none => (w.writeBytes temp).alignCursor 4
    .ok { ctx with writer := w }

/-- Non-string payload loop of `WriteContext::WriteDataSection`. -/
def aampWriteDataLoop (ctx : AampCtx) (lookupStart : Nat) :
    List (ParamPath × AParam) → Except Err AampCtx
  | [] => .ok ctx
  | (ppath, param) :: rest => do
    let ctx ← aampWriteParameterData ctx ppath param lookupStart
    aampWriteDataLoop ctx lookupStart rest

/-- `WriteContext::WriteDataSection`: write every queued non-string payload
(the dedup scan starts at the section start), then align. -/
def aampWriteDataSection (ctx : AampCtx) (queue : List (ParamPath × AParam)) :
    Except Err AampCtx := do
  let lookupStart := ctx.writer.offset
  let ctx ← aampWriteDataLoop ctx lookupStart queue
  .ok { ctx with writer := ctx.writer.alignCursor 4 }

/-- `WriteContext::WriteString`: deduplicate through the string-to-offset
map, patch the parent's 24-bit data offset, and append the NUL-terminated
string only on first use. -/
def aampWriteString (ctx : AampCtx) (ppath : ParamPath) (param : AParam) :
    Except Err AampCtx := do
  let parentOffset ← ctx.paramOffsetAt ppath
  let s ← param.stringView
  let (off, inserted) :=
    match ctx.stringOffsets.find? (fun p => p.1 = s) with
    | some p => (p.2, false)
    | none => (ctx.writer.offset, true)
  let ctx := if inserted
    then { ctx with stringOffsets := ctx.stringOffsets ++ [(s, off)] }
    else ctx
  let w ← aampWriteCompactAt ctx.writer 3 (parentOffset + 4)
    (off - parentOffset) (4 * 2 ^ 24)
  let w := if inserted then (w.writeCStr s).alignCursor 4 else w
  .ok { ctx with writer := w }

/-- String loop of `WriteContext::WriteStringSection`. -/
def aampWriteStringLoop (ctx : AampCtx) :
    List (ParamPath × AParam) → Except Err AampCtx
  | [] => .ok ctx
  | (ppath, param) :: rest => do
    let ctx ← aampWriteString ctx ppath param
    aampWriteStringLoop ctx rest

/-- `ParameterIO::ToBinary`: reserve the 0x30-byte header, write the type
string, run the four tree passes (list headers, object headers, parameter
collection, parameter headers), then the data and string sections, and
finally the header with the section sizes and counts. -/
def aampToBinary (pio : APio) : Except Err (List Nat) := do
  let fuel := pio.root.treeSize + 1
  let ctx : AampCtx :=
    { writer := ⟨[], 0, .little⟩, numLists := 0, numObjects := 0, numParameters := 0,
      listOffsets := [], objOffsets := [], paramOffsets := [], stringOffsets := [] }
  let ctx := { ctx with
    writer := ((ctx.writer.seek 0x30).writeCStr pio.typ).alignCursor 4 }
  let offsetToPio := ctx.writer.offset
  let ctx := aampWriteList ctx aampParamRootKey pio.root []
  let ctx ← aampWriteListsRec fuel ctx pio.root []
  let ctx ← aampWriteObjectsRec fuel ctx pio.root []
  let queues ← aampCollectRec fuel pio.root [] true ([], [])
  let ctx ← aampWriteParametersRec fuel ctx pio.root []
  let dataSectionBegin := ctx.writer.offset
  let ctx ← aampWriteDataSection ctx queues.1
  let stringSectionBegin := ctx.writer.offset
  let ctx ← aampWriteStringLoop ctx queues.2
  let ctx := { ctx with writer := ctx.writer.alignCursor 4 }
  let unkSectionBegin := ctx.writer.offset
  let w := (ctx.writer.alignCursor 4).growBuffer
  let fileSize := w.offset
  let w := ((((((((((((w.seek 0).writeBytes [0x41, 0x41, 0x4D, 0x50]).writeNat 4
    2).writeNat 4 3).writeNat 4 fileSize).writeNat 4 pio.version).writeNat 4
    (offsetToPio - 0x30)).writeNat 4 ctx.numLists).writeNat 4
    ctx.numObjects).writeNat 4 ctx.numParameters).writeNat 4
    (stringSectionBegin - dataSectionBegin)).writeNat 4
    (unkSectionBegin - stringSectionBegin)).writeNat 4 0
  .ok w.data

/-! ## AAMP parser (aamp::Parser in src/unnamed/part_006) -/

/-- `Read<ResParameter>(offset)` (8 bytes: u32 name CRC, 24-bit scaled data
offset, type byte), all little-endian. -/
def aampReadResParameter (r : BinaryReader) (offset : Nat) :
    Option ((Nat × Nat × Nat) × BinaryReader) :=
  if offset + 8 > r.data.length then none
  else
    let name := bytesToNatLE ((r.data.drop offset).take 4)
    let dataRel := bytesToNatLE ((r.data.drop (offset + 4)).take 3)
    let typ := r.data.getD (offset + 7) 0
    some ((name, dataRel, typ), { r with offset := offset + 8 })

/-- `Read<ResParameterObj>(offset)` (8 bytes). -/
def aampReadResParameterObj (r : BinaryReader) (offset : Nat) :
    Option ((Nat × Nat × Nat) × BinaryReader) :=
  if offset + 8 > r.data.length then none
  else
    let name := bytesToNatLE ((r.data.drop offset).take 4)
    let paramsRel := bytesToNatLE ((r.data.drop (offset + 4)).take 2)
    let numParams := bytesToNatLE ((r.data.drop (offset + 6)).take 2)
    some ((name, paramsRel, numParams), { r with offset := offset + 8 })

/-- `Read<ResParameterList>(offset)` (12 bytes). -/
def aampReadResParameterList (r : BinaryReader) (offset : Nat) :
    Option ((Nat × Nat × Nat × Nat × Nat) × BinaryReader) :=
  if offset + 12 > r.data.length then none
  else
    let name := bytesToNatLE ((r.data.drop offset).take 4)
    let listsRel := bytesToNatLE ((r.data.drop (offset + 4)).take 2)
    let numLists := bytesToNatLE ((r.data.drop (offset + 6)).take 2)
    let objectsRel := bytesToNatLE ((r.data.drop (offset + 8)).take 2)
    let numObjects := bytesToNatLE ((r.data.drop (offset + 10)).take 2)
    some ((name, listsRel, numLists, objectsRel, numObjects),
      { r with offset := offset + 12 })

/-- `Read<T>(data_offset)` for a struct of `count` consecutive little-endian
32-bit words (Vector2f/3f/4f, Color4f, Quatf, Curve arrays): one bounds check
for the whole struct. -/
def aampReadWords (r : BinaryReader) (offset count : Nat) :
    Option (List Nat × BinaryReader) :=
  if offset + 4 * count > r.data.length then none
  else
    some ((List.range count).map
      (fun i => bytesToNatLE ((r.data.drop (offset + 4 * i)).take 4)),
      { r with offset := offset + 4 * count })

/-- Split a flat word list into `Curve` values (32 words each). -/
def wordsToCurves (ws : List Nat) (n : Nat) : List ACurve :=
  (List.range n).map (fun i =>
    { a := ws.getD (32 * i) 0
      b := ws.getD (32 * i + 1) 0
      floats := ((ws.drop (32 * i + 2)).take 30) })

/-- `aamp::Parser::ParseBuffer<T>`: the element count is read at
`data_offset - 4` through `.value()`.  A `data_offset` below 4 underflows the
u32 subtraction in the source and the resulting far read fails the bounds
check, so it surfaces `std::bad_optional_access` as well.  The sequential
element loop reads through `.value()`: it succeeds exactly when all `size`
elements fit, and otherwise throws at the first failing read. -/
def aampParseBuffer (r : BinaryReader) (width dataOffset : Nat) :
    Except Err (List Nat × BinaryReader) :=
  if dataOffset < 4 then .error .badOptionalAccess
  else
    match r.readNat 4 (some (dataOffset - 4)) with
    | none => .error .badOptionalAccess
    | some (size, r) =>
      if dataOffset + width * size ≤ r.data.length then
        .ok ((List.range size).map
          (fun i => bytesToNatLE ((r.data.drop (dataOffset + width * i)).take width)),
          { r with offset := dataOffset + width * size })
      else .error .badOptionalAccess

/-- `aamp::Parser::ParseParameter`: read the 8-byte header through
`.value()`, resolve the scaled data offset, and decode one of the 21
parameter types (unknown type bytes raise `InvalidDataError`). -/
def aampParseParameter (r : BinaryReader) (offset : Nat) :
    Except Err ((Nat × AParam) × BinaryReader) :=
  match aampReadResParameter r offset with
  | none => .error .badOptionalAccess
  | some ((crc, dataRel, typ), r) =>
    let dataOffset := offset + dataRel * 4
    let word := fun (r : BinaryReader) =>
      match r.readNat 4 (some dataOffset) with
      | none => Except.error Err.badOptionalAccess
      | some (v, r) => Except.ok (v, r)
    match typ with
    | 0 => do
        let (v, r) ← word r
        .ok ((crc, .bool (v ≠ 0)), r)
    | 1 => do
        let (v, r) ← word r
        .ok ((crc, .f32 v), r)
    | 2 => do
        let (v, r) ← word r
        .ok ((crc, .int (toS32 v)), r)
    | 3 =>
      match aampReadWords r dataOffset 2 with
      | none => .error .badOptionalAccess
      | some (ws, r) => .ok ((crc, .vec2 (ws.getD 0 0) (ws.getD 1 0)), r)
    | 4 =>
      match aampReadWords r dataOffset 3 with
      | none => .error .badOptionalAccess
      | some (ws, r) =>
        .ok ((crc, .vec3 (ws.getD 0 0) (ws.getD 1 0) (ws.getD 2 0)), r)
    | 5 =>
      match aampReadWords r dataOffset 4 with
      | none => .error .badOptionalAccess
      | some (ws, r) =>
        .ok ((crc, .vec4 (ws.getD 0 0) (ws.getD 1 0) (ws.getD 2 0) (ws.getD 3 0)), r)
    | 6 =>
      match aampReadWords r dataOffset 4 with
      | none => .error .badOptionalAccess
      | some (ws, r) =>
        .ok ((crc, .color (ws.getD 0 0) (ws.getD 1 0) (ws.getD 2 0) (ws.getD 3 0)), r)
    | 7 => do
        let s ← r.readString dataOffset (some 32)
        .ok ((crc, .string32 s), r)
    | 8 => do
        let s ← r.readString dataOffset (some 64)
        .ok ((crc, .string64 s), r)
    | 9 =>
      match aampReadWords r dataOffset 32 with
      | none => .error .badOptionalAccess
      | some (ws, r) => .ok ((crc, .curve1 (wordsToCurves ws 1)), r)
    | 10 =>
      match aampReadWords r dataOffset 64 with
      | none => .error .badOptionalAccess
      | some (ws, r) => .ok ((crc, .curve2 (wordsToCurves ws 2)), r)
    | 11 =>
      match aampReadWords r dataOffset 96 with
      | none => .error .badOptionalAccess
      | some (ws, r) => .ok ((crc, .curve3 (wordsToCurves ws 3)), r)
    | 12 =>
      match aampReadWords r dataOffset 128 with
      | none => .error .badOptionalAccess
      | some (ws, r) => .ok ((crc, .curve4 (wordsToCurves ws 4)), r)
    | 13 => do
        let (ws, r) ← aampParseBuffer r 4 dataOffset
        .ok ((crc, .bufferInt (ws.map toS32)), r)
    | 14 => do
        let (ws, r) ← aampParseBuffer r 4 dataOffset
        .ok ((crc, .bufferF32 ws), r)
    | 15 => do
        let s ← r.readString dataOffset (some 256)
        .ok ((crc, .string256 s), r)
    | 16 =>
      match aampReadWords r dataOffset 4 with
      | none => .error .badOptionalAccess
      | some (ws, r) =>
        .ok ((crc, .quat (ws.getD 0 0) (ws.getD 1 0) (ws.getD 2 0) (ws.getD 3 0)), r)
    | 17 => do
        let (v, r) ← word r
        .ok ((crc, .u32 v), r)
    | 18 => do
        let (ws, r) ← aampParseBuffer r 4 dataOffset
        .ok ((crc, .bufferU32 ws), r)
    | 19 => do
        let (ws, r) ← aampParseBuffer r 1 dataOffset
        .ok ((crc, .bufferBinary ws), r)
    | 20 => do
        let s ← r.readString dataOffset none
        .ok ((crc, .stringRef s), r)
    | _ => .error .invalidData

/-- Parameter loop of `aamp::Parser::ParseObject` (`ordered_map::emplace`
keeps the first entry for a duplicated name hash). -/
def aampParseObjectEntries (r : BinaryReader) (offsetToParams : Nat) :
    Nat → Nat → List (Nat × AParam) →
    Except Err (List (Nat × AParam) × BinaryReader)
  | 0, _, acc => .ok (acc, r)
  | remaining + 1, i, acc =>
    match aampParseParameter r (offsetToParams + 8 * i) with
    | .error e => .error e
    | .ok ((name, param), r) =>
      aampParseObjectEntries r offsetToParams remaining (i + 1) (omEmplace name param acc)

/-- `aamp::Parser::ParseObject`. -/
def aampParseObject (r : BinaryReader) (offset : Nat) :
    Except Err ((Nat × AObject) × BinaryReader) :=
  match aampReadResParameterObj r offset with
  | none => .error .badOptionalAccess
  | some ((name, paramsRel, numParams), r) => do
    let (params, r) ← aampParseObjectEntries r (offset + paramsRel * 4) numParams 0 []
    .ok ((name, ⟨params⟩), r)

/-- Object loop of `aamp::Parser::ParseList`. -/
def aampParseListObjects (r : BinaryReader) (offsetToObjects : Nat) :
    Nat → Nat → List (Nat × AObject) →
    Except Err (List (Nat × AObject) × BinaryReader)
  | 0, _, acc => .ok (acc, r)
  | remaining + 1, i, acc =>
    match aampParseObject r (offsetToObjects + 8 * i) with
    | .error e => .error e
    | .ok ((name, obj), r) =>
      aampParseListObjects r offsetToObjects remaining (i + 1) (omEmplace name obj acc)

mutual

/-- `aamp::Parser::ParseList`: read the 12-byte header through `.value()`,
then parse the child lists and the objects from their scaled relative
offsets. -/
def aampParseList (fuel : Nat) (r : BinaryReader) (offset : Nat) :
    Except Err ((Nat × AList) × BinaryReader) :=
  match fuel with
  | 0 => .error .stackOverflow
  | f + 1 =>
    match aampReadResParameterList r offset with
    | none => .error .badOptionalAccess
    | some ((name, listsRel, numLists, objectsRel, numObjects), r) => do
      let (lists, r) ← aampParseListEntries f r (offset + listsRel * 4) numLists 0 []
      let (objects, r) ← aampParseListObjects r (offset + objectsRel * 4) numObjects 0 []
      .ok ((name, .mk objects lists), r)
termination_by structural fuel

/-- Child-list loop of `aamp::Parser::ParseList`. -/
def aampParseListEntries (fuel : Nat) (r : BinaryReader) (offsetToLists : Nat)
    (remaining i : Nat) (acc : List (Nat × AList)) :
    Except Err (List (Nat × AList) × BinaryReader) :=
  match fuel with
  | 0 => .error .stackOverflow
  | f + 1 =>
    match remaining with
    | 0 => .ok (acc, r)
    | remaining + 1 =>
      match aampParseList f r (offsetToLists + 12 * i) with
      | .error e => .error e
      | .ok ((name, child), r) =>
        aampParseListEntries f r offsetToLists remaining (i + 1) (omEmplace name child acc)
termination_by structural fuel

end

/-- `ParameterIO::FromBinary` (`aamp::Parser`'s constructor plus `Parse`):
validate magic, version 2 and the little-endian/UTF-8 flags, walk the root
list from `offset_to_pio`, demand the `param_root` key, and read the data
version and type string from the header area.  The fixed-offset header reads
are guarded by the 0x30-byte length check, so their optional dereferences
cannot fail and the reads are written directly. -/
def aampFromBinary (data : List Nat) : Except Err APio :=
  if data.length < 0x30 then .error .invalidData
  else if data.take 4 ≠ [0x41, 0x41, 0x4D, 0x50] then .error .invalidData
  else
    let version := bytesToNatLE ((data.drop 4).take 4)
    if version ≠ 2 then .error .invalidData
    else
      let flags := bytesToNatLE ((data.drop 8).take 4)
      if flags % 2 = 0 then .error .invalidData
      else if flags / 2 % 2 = 0 then .error .invalidData
      else
        let offsetToPio := bytesToNatLE ((data.drop 20).take 4)
        do
          let ((rootName, root), r) ←
            aampParseList (data.length + 16) ⟨data, 0, .little⟩ (0x30 + offsetToPio)
          if rootName ≠ aampParamRootKey then .error .invalidData
          else
            let pioVersion := bytesToNatLE ((data.drop 16).take 4)
            do
              let typ ← r.readString 0x30 none
              .ok { version := pioVersion, typ := typ, root := root }

/-! ## Concrete fixtures used by the claim theorems -/

/-- A Hash64 document mapping key 5 to Int 7. -/
def bymlHash64Sample : Byml := .hash64 [(5, .int 7)]

/-- An Array document holding one File node with eight data bytes and
alignment 0x10 (a small instance of the spec's scenario c, which uses
0x1000; the placement formula is the same for every alignment). -/
def bymlFileSample : Byml := .arr [.file [0, 1, 2, 3, 4, 5, 6, 7] 0x10]

/-- The bytes `Byml::ToBinary` produces for `bymlHash64Sample`
(little-endian, version 4): header, then the Hash64 container at offset 16
with the 8-byte key at 20 and the value cell at 28. -/
def bymlHash64SampleBytes : List Nat :=
  [0x59, 0x42, 4, 0, 0, 0, 0, 0, 0, 0, 0, 0, 16, 0, 0, 0,
   0x21, 1, 0, 0, 5, 0, 0, 0, 0, 0, 0, 0, 7, 0, 0, 0, 0xD1]

/-- The bytes `ParameterIO::ToBinary` produces for `aampDedupSample`: 0x30
header, type string, root list at 0x34, object at 0x40, the two parameter
entries at 0x48 and 0x50, and a single shared 16-byte data blob at 0x58. -/
def aampDedupSampleBytes : List Nat :=
  [65, 65, 77, 80, 2, 0, 0, 0, 3, 0, 0, 0, 104, 0, 0, 0,
   0, 0, 0, 0, 4, 0, 0, 0, 1, 0, 0, 0, 1, 0, 0, 0,
   2, 0, 0, 0, 16, 0, 0, 0, 0, 0, 0, 0, 0, 0, 0, 0,
   120, 109, 108, 0, 108, 203, 246, 164, 3, 0, 0, 0, 3, 0, 1, 0,
   0, 1, 0, 0, 2, 0, 2, 0, 1, 0, 0, 0, 5, 0, 0, 13,
   2, 0, 0, 0, 2, 0, 0, 13, 3, 0, 0, 0, 1, 0, 0, 0,
   2, 0, 0, 0, 3, 0, 0, 0]

/-- A Hash32 document (a node kind the spec reserves for BYML v4). -/
def bymlHash32Sample : Byml := .hash32 [(1, .int 1)]

/-- A ParameterIO whose single object holds two structurally identical
BufferInt([1,2,3]) parameters (the spec's scenario d). -/
def aampDedupSample : APio :=
  { version := 0, typ := [0x78, 0x6D, 0x6C],
    root := .mk [(0x100, ⟨[(1, .bufferInt [1, 2, 3]), (2, .bufferInt [1, 2, 3])]⟩)] [] }

/-- A well-formed big-endian SARC archive: data offset 0x2000 and a single
FAT entry with `data_begin = 0`, so its file payload starts at offset 0x2000
(a multiple of 0x2000). -/
def sarcAlignedArchive : List Nat :=
  [0x53, 0x41, 0x52, 0x43, 0x00, 0x14, 0xFE, 0xFF] ++
  [0x00, 0x00, 0x20, 0x00] ++
  [0x00, 0x00, 0x20, 0x00] ++
  [0x01, 0x00, 0x00, 0x00] ++
  [0x53, 0x46, 0x41, 0x54, 0x00, 0x0C, 0x00, 0x01] ++
  [0x00, 0x00, 0x00, 0x65] ++
  [0x00, 0x00, 0x00, 0x61] ++
  [0x01, 0x00, 0x00, 0x00] ++
  [0x00, 0x00, 0x00, 0x00] ++
  [0x00, 0x00, 0x00, 0x00] ++
  [0x53, 0x46, 0x4E, 0x54, 0x00, 0x08, 0x00, 0x00]

/-- A well-formed little-endian SARC archive with two files named `a` and
`b`, padded so that the out-of-table entry fabricated by `GetFile(2)` stays
inside the buffer. -/
def sarcTwoFileArchive : List Nat :=
  [0x53, 0x41, 0x52, 0x43, 0x14, 0x00, 0xFF, 0xFE] ++
  [0xB2, 0x00, 0x00, 0x00] ++
  [0x50, 0x00, 0x00, 0x00] ++
  [0x00, 0x01, 0x00, 0x00] ++
  [0x53, 0x46, 0x41, 0x54, 0x0C, 0x00, 0x02, 0x00] ++
  [0x65, 0x00, 0x00, 0x00] ++
  [0x61, 0x00, 0x00, 0x00] ++ [0x00, 0x00, 0x00, 0x01] ++
  [0x00, 0x00, 0x00, 0x00] ++ [0x01, 0x00, 0x00, 0x00] ++
  [0x62, 0x00, 0x00, 0x00] ++ [0x01, 0x00, 0x00, 0x01] ++
  [0x04, 0x00, 0x00, 0x00] ++ [0x05, 0x00, 0x00, 0x00] ++
  [0x53, 0x46, 0x4E, 0x54, 0x08, 0x00, 0x00, 0x00] ++
  [0x61, 0x00, 0x00, 0x00, 0x62, 0x00, 0x00, 0x00] ++
  [0xAA, 0x00, 0x00, 0x00, 0xBB] ++ List.replicate (0xB2 - 0x55) 0

/-- A Yaz0 stream advertising three output bytes whose first chunk is a
back-reference (group header 0x00, pair 0x2001: length 4, distance 2) whose
copy source precedes the start of the output buffer. -/
def yaz0OobRefStream : List Nat := yaz0HeaderBytes 3 0 ++ [0x00, 0x20, 0x01]

/-! ## Claim theorems -/

set_option maxRecDepth 8000
set_option maxHeartbeats 1000000

/-- Claim C1 (code bug): the BYML writer stores a Hash64 entry's value cell 8
bytes after the entry start (container offset 12 + 12 i), but
`ParseHash64Node` reads it at container offset 8 + 12 i — inside the 8-byte
key — so `FromBinary(ToBinary(d))` returns Int 0 instead of Int 7 for the
document `{5: Int 7}` and the round-trip claim fails. -/
theorem byml_hash64_value_cell_mismatch :
    bymlToBinary bymlHash64Sample false 4 = .ok bymlHash64SampleBytes
    ∧ bymlFromBinary bymlHash64SampleBytes = .ok (Byml.hash64 [(5, Byml.int 0)])
    ∧ (Byml.hash64 [(5, Byml.int 0)] : Byml) ≠ bymlHash64Sample := by
  refine ⟨by rfl, by rfl, ?_⟩
  simp [bymlHash64Sample]

/-- Claim C3 (code bug): emitting `Array [File(data=[0..8], align=0x10)]`
places the File payload at offset 28 (the cell at offset 24 records it and
the payload's size field sits there), and `(28 + 8) mod 0x10 = 4`, not 0: the
swapped `util::AlignUp(align, Tell() + 8)` argument order breaks the
alignment contract (at the spec's align = 0x1000 the same formula yields
payload offset 4096 with `(4096 + 8) mod 0x1000 = 8`). -/
theorem byml_file_alignment_violated :
    (bymlToBinary bymlFileSample false 4).map
        (fun bs => (bytesToNatLE ((bs.drop 24).take 4),
                    bytesToNatLE ((bs.drop 28).take 4))) = .ok (28, 8)
    ∧ (28 + 8) % 0x10 ≠ 0 := by
  exact ⟨by rfl, by decide⟩

/-- Claim C6 counterexample: serializing a document that contains a Hash32
node (a v4-only node kind per the spec) at version 2 succeeds — no
InvalidData version-compatibility failure occurs. -/
theorem byml_hash32_v2_emits_without_error :
    exceptIsOk (bymlToBinary bymlHash32Sample false 2) = true := by rfl

/-- Claim C6 as amended: `Byml::ToBinary` accepts exactly the versions
1..=10, rejecting the rest with `std::invalid_argument` (not InvalidData),
and performs no node-kind/version check: the Hash32 document is emitted
successfully at every accepted version. -/
theorem byml_tobinary_version_policy :
    (∀ v : Nat, ¬ (1 ≤ v ∧ v ≤ 10) →
      bymlToBinary bymlHash32Sample false v = .error .invalidArgument)
    ∧ (∀ v : Nat, v ≤ 10 → 1 ≤ v →
      exceptIsOk (bymlToBinary bymlHash32Sample false v) = true) := by
  constructor
  · intro v h
    have hv : isValidVersion v = false := by
      rw [Bool.eq_false_iff]
      intro hvt
      apply h
      simpa [isValidVersion] using hvt
    simp [bymlToBinary, hv]
  · decide

/-- Claim C6 witness: version 11 is rejected with `std::invalid_argument`
and version 2 emits the Hash32 document. -/
theorem byml_tobinary_version_policy_witness :
    bymlToBinary bymlHash32Sample false 11 = .error .invalidArgument
    ∧ exceptIsOk (bymlToBinary bymlHash32Sample false 2) = true :=
  ⟨byml_tobinary_version_policy.1 11 (by decide),
   byml_tobinary_version_policy.2 2 (by decide) (by decide)⟩

/-- Claim C9: `Byml::GetUInt64` returns UInt64 values as is, widens UInt,
accepts non-negative Int and Int64 (raising TypeError on negative values),
and raises TypeError on every other node type. -/
theorem byml_getuint64_coercions :
    (∀ n : Nat, Byml.getUInt64 (.uint64 n) = .ok n)
    ∧ (∀ n : Nat, Byml.getUInt64 (.uint n) = .ok n)
    ∧ (∀ i : Int, Byml.getUInt64 (.int i) =
        if 0 ≤ i then .ok i.toNat else .error .typeError)
    ∧ (∀ i : Int, Byml.getUInt64 (.int64 i) =
        if 0 ≤ i then .ok i.toNat else .error .typeError)
    ∧ (∀ b : Byml, b.isIntegerNode = false → Byml.getUInt64 b = .error .typeError) := by
  refine ⟨fun n => rfl, fun n => rfl, fun i => rfl, fun i => rfl, ?_⟩
  intro b h
  cases b <;> first
    | rfl
    | exact absurd h (by simp [Byml.isIntegerNode])

/-- Claim C9 witness: a Null node raises TypeError and UInt64 5 is returned
as 5. -/
theorem byml_getuint64_coercions_witness :
    Byml.getUInt64 .null = .error .typeError ∧ Byml.getUInt64 (.uint64 5) = .ok 5 :=
  ⟨byml_getuint64_coercions.2.2.2.2 .null rfl, byml_getuint64_coercions.1 5⟩

/-- Claim C2 (code bug): round-tripping the two-BufferInt ParameterIO fails.
The writer deduplicates the second buffer's payload (the whole data section
is one 16-byte blob, as the header's `data_section_size` shows), but it
records the match offset itself — the position of the 4-byte length prefix —
instead of `match + 4`, so the parser reads the length from `data_offset - 4`
(bytes of the parameter entry), asks for 0x0D000002 elements, and dies with
`std::bad_optional_access`. -/
theorem aamp_buffer_dedup_offset_mismatch :
    aampToBinary aampDedupSample = .ok aampDedupSampleBytes
    ∧ aampFromBinary aampDedupSampleBytes = .error .badOptionalAccess
    ∧ (aampDedupSampleBytes.length, bytesToNatLE ((aampDedupSampleBytes.drop 36).take 4))
        = (104, 16) := by
  exact ⟨by rfl, by rfl, by rfl⟩

/-- Claim C4 (code bug): on a well-formed archive whose single file starts at
0x2000 (a power of two), `Sarc::GuessMinAlignment` returns 4, not 0x2000: the
GCD accumulator is seeded with `MinAlignment = 4`, so the result always
divides 4. -/
theorem sarc_guess_min_alignment_returns_four :
    (sarcOpen sarcAlignedArchive).map (·.dataOffset) = .ok 0x2000
    ∧ (sarcOpen sarcAlignedArchive).bind sarcGuessMinAlignment = .ok 4 := by
  exact ⟨by rfl, by rfl⟩

/-- Claim C10 (code bug): on a parsed two-file archive, `GetFile(2)` — index
equal to the file count — passes the `index > m_num_files` guard, reads the
SFNT header bytes as a FAT entry and returns a fabricated file view instead
of raising `std::out_of_range`. -/
theorem sarc_getfile_index_equal_count_accepted :
    (sarcOpen sarcTwoFileArchive).map (·.numFiles) = .ok 2
    ∧ (sarcOpen sarcTwoFileArchive).bind (fun s => sarcGetFile s 2)
        = .ok { name := [], fileData := [0] } := by
  exact ⟨by rfl, by rfl⟩

/-- Claim C7 counterexample: a four-byte input (just the magic) makes the
`Sarc` constructor fail its first header read inside `.value()`, surfacing
`std::bad_optional_access` — not InvalidData. -/
theorem sarc_truncated_magic_bad_optional_access :
    sarcOpen [0x53, 0x41, 0x52, 0x43] = .error .badOptionalAccess := by rfl

/-- Claim C7 as amended: the truncated read is detected (no out-of-bounds
memory access), but for every input shorter than the 0x14-byte header the
SARC reader surfaces `std::bad_optional_access` instead of InvalidData. -/
theorem sarc_truncated_header_error_kind :
    ∀ data : List Nat, data.length < 0x14 →
      sarcOpen data = .error .badOptionalAccess := by
  intro data h
  have : readSarcResHeader ⟨data, 0, .big⟩ = none := by
    simp only [readSarcResHeader]
    rw [if_pos]
    omega
  simp [sarcOpen, this]

/-- Claim C7 witness: the empty input. -/
theorem sarc_truncated_header_error_kind_witness :
    sarcOpen [] = .error .badOptionalAccess :=
  sarc_truncated_header_error_kind [] (by decide)

/-- Claim C8 counterexample: on a stream whose first chunk is a
back-reference reaching before the output start, the safe decoder fails with
`std::invalid_argument` (not InvalidData), and `DecompressUnsafe` performs
the same copy bounds check and fails identically instead of omitting it. -/
theorem yaz0_copy_check_unconditional :
    yaz0DecompressSafe yaz0OobRefStream 3 = .error .invalidArgument
    ∧ yaz0DecompressUnsafe yaz0OobRefStream 3 = .error .invalidArgument := by
  exact ⟨by rfl, by rfl⟩

/-- Claim C8 as amended: both decoder template instantiations run the copy
bounds check — for any nonempty destination size, decoding the
out-of-range-reference stream fails with `std::invalid_argument` whether or
not the `Safe` input-read checks are enabled. -/
theorem yaz0_copy_bounds_both_variants :
    ∀ (safe : Bool) (dstLen : Nat), 1 ≤ dstLen →
      yaz0DecompressInto safe yaz0OobRefStream dstLen = .error .invalidArgument := by
  intro safe dstLen h
  obtain ⟨d, rfl⟩ : ∃ d, dstLen = d + 1 := ⟨dstLen - 1, by omega⟩
  cases safe <;>
    simp [yaz0DecompressInto, yaz0Loop, yaz0ReadU8, yaz0ReadU16, yaz0OobRefStream,
      yaz0HeaderBytes, natToBytes, natToBytesLE, Bind.bind, Except.bind, pure,
      Except.pure]

/-- Claim C8 witness: the unsafe variant with a one-byte destination. -/
theorem yaz0_copy_bounds_both_variants_witness :
    yaz0DecompressInto false yaz0OobRefStream 1 = .error .invalidArgument :=
  yaz0_copy_bounds_both_variants false 1 (by decide)

/-- Claim C5 counterexample: compressing the empty input yields 17 bytes, not
the claimed bare 16-byte header: the `GroupWriter` constructor's `Reset`
eagerly pushes a 0xFF group-header placeholder that `Finalise` never removes. -/
theorem yaz0_compress_empty_has_body_byte :
    (yaz0Compress [] 0 7).length = 17 ∧ (17 : Nat) ≠ 16 := by
  exact ⟨by rfl, by decide⟩

/-- Claim C5 as amended: `compress([])` is the 16-byte header (magic Yaz0,
uncompressed size 0) followed by exactly one 0xFF placeholder group-header
byte, and decompressing that output returns the empty byte string. -/
theorem yaz0_compress_empty_roundtrip :
    yaz0Compress [] 0 7 = yaz0HeaderBytes 0 0 ++ [0xFF]
    ∧ yaz0Decompress (yaz0Compress [] 0 7) = .ok [] := by
  exact ⟨by rfl, by rfl⟩

end Oead
